import Mathlib

set_option maxHeartbeats 1000000

/-! Verification development for the xrpl-visualizer backend.

The Go sources are shallowly embedded: decoded JSON values become an
inductive tree, Go maps become association lists in document order,
`float64` fields that the code only ever treats as integers become `Int`,
coordinates become `Rat`, fallible functions return `Except`/`Option`,
and network or file effects become explicit parameters (environments and
state passing).  Each definition mirrors one Go function of the repository
and keeps its name. -/

/-- Model of a decoded JSON value as produced by Go encoding/json into an
interface value.  Objects are association lists in document order; numbers
are modelled as integers (every numeric field the embedded code inspects is
integral, Go holds them as float64). -/
inductive JValue where
  | jnull
  | jbool (b : Bool)
  | jnum (n : Int)
  | jstr (s : String)
  | jarr (items : List JValue)
  | jobj (fields : List (String × JValue))

/-- A decoded JSON object, i.e. a Go map[string]interface value. -/
abbrev JObj := List (String × JValue)

/-- Go map read m[key]: the binding when present. -/
def jLookup (obj : JObj) (key : String) : Option JValue :=
  List.lookup key obj

/-- Go map read m[key] as an interface value: nil when the key is absent. -/
def jLookupV (obj : JObj) (key : String) : JValue :=
  (jLookup obj key).getD .jnull

/-- Go type assertion v.(string) with the zero value on failure. -/
def jStrD : JValue → String
  | .jstr s => s
  | _ => ""

/-- Go type assertion v.(bool) with the zero value on failure. -/
def jBoolD : JValue → Bool
  | .jbool b => b
  | _ => false

/-- Accumulate the value of a list of decimal digits, failing on any
non-digit character. -/
def decDigitsVal : List Char → Nat → Option Nat
  | [], acc => some acc
  | c :: rest, acc =>
    if c.isDigit then decDigitsVal rest (acc * 10 + (c.toNat - 48)) else none

/-- Go strconv.ParseInt(s, 10, 64): optional sign, then a nonempty run of
decimal digits, within the signed 64-bit range; any violation is an error. -/
def goParseInt64 (s : String) : Option Int :=
  let split : Bool × List Char :=
    match s.data with
    | '+' :: rest => (false, rest)
    | '-' :: rest => (true, rest)
    | rest => (false, rest)
  match split with
  | (neg, rest) =>
    if rest.isEmpty then none
    else
      match decDigitsVal rest 0 with
      | none => none
      | some n =>
        let v : Int := if neg then -(n : Int) else (n : Int)
        if v < -(2 ^ 63) ∨ (2 ^ 63 - 1) < v then none else some v

/-- transaction.parseDrops: amounts must be decimal strings (IOU amount
objects are rejected). -/
def parseDrops : JValue → Option Int
  | .jstr s => goParseInt64 s
  | _ => none

/-- transaction.toUint32: accepts a non-negative number and converts it to
uint32 (the wrapping Go conversion is modelled as mod 2 ^ 32). -/
def toUint32 : JValue → Option Nat
  | .jnum n => if n < 0 then none else some (n.toNat % 2 ^ 32)
  | _ => none

/-- tfPartialPayment flag bit of an XRPL Payment. -/
def tfPartialPayment : Nat := 0x00020000

/-- rippleEpochOffset: seconds between the Ripple epoch and the Unix epoch. -/
def rippleEpochOffset : Int := 946684800

/-- transaction.toUnixTimestamp; the wall clock read for a missing date is
passed in as now. -/
def toUnixTimestamp (now : Int) : JValue → Int
  | .jnum n => n + rippleEpochOffset
  | _ => now

/-- Go ASCII lowercase of one character (strings.ToLower restricted to the
ASCII range, which is all the embedded comparisons use). -/
def goCharToLower (c : Char) : Char :=
  if 65 ≤ c.toNat ∧ c.toNat ≤ 90 then Char.ofNat (c.toNat + 32) else c

/-- Lowercase a character list. -/
def toLowerL (s : List Char) : List Char := s.map goCharToLower

/-- Go strings.ToLower (ASCII fragment). -/
def goToLower (s : String) : String := ⟨toLowerL s.data⟩

/-- Go strings.EqualFold (ASCII fragment). -/
def goEqualFold (a b : String) : Bool := toLowerL a.data == toLowerL b.data

/-- Whitespace recognised by Go strings.TrimSpace (the Latin-1 fragment of
unicode.IsSpace), by code point: space, tab, newline, vertical tab, form
feed, carriage return, next line, no-break space. -/
def isGoSpace (c : Char) : Bool :=
  c.toNat = 32 || c.toNat = 9 || c.toNat = 10 || c.toNat = 11 || c.toNat = 12 ||
    c.toNat = 13 || c.toNat = 133 || c.toNat = 160

/-- Remove the longest run of characters satisfying p from the end of a
list. -/
def trimRightWhile (p : Char → Bool) : List Char → List Char
  | [] => []
  | c :: rest =>
    match trimRightWhile p rest with
    | [] => if p c then [] else [c]
    | r => c :: r

/-- Go strings.Trim with a one-character cutset: drop that character from
both ends. -/
def trimWhile (p : Char → Bool) (s : List Char) : List Char :=
  trimRightWhile p (s.dropWhile p)

/-- Go strings.TrimSpace. -/
def goTrimSpace (s : String) : String := ⟨trimWhile isGoSpace s.data⟩

/-- Go strings.TrimPrefix on character lists. -/
def trimPrefixL (pre s : List Char) : List Char :=
  if pre.isPrefixOf s then s.drop pre.length else s

/-- Go strings.TrimSuffix on character lists. -/
def trimSuffixL (suf s : List Char) : List Char :=
  if suf.isSuffixOf s then s.take (s.length - suf.length) else s

/-- Index of the last occurrence of a character, Go net.last. -/
def lastIndexOfChar (c : Char) : List Char → Option Nat
  | [] => none
  | a :: rest =>
    match lastIndexOfChar c rest with
    | some i => some (i + 1)
    | none => if a == c then some 0 else none

/-- Index of the first occurrence of a character. -/
def firstIndexOfChar (c : Char) : List Char → Option Nat
  | [] => none
  | a :: rest => if a == c then some 0 else (firstIndexOfChar c rest).map (· + 1)

/-- Go net.SplitHostPort; some (host, port) models a nil error.  The Go
function indexes bytes, the model indexes characters — they agree on the
ASCII host names the embedded code handles. -/
def splitHostPortL (s : List Char) : Option (List Char × List Char) :=
  match lastIndexOfChar ':' s with
  | none => none
  | some i =>
    if s.head? == some '[' then
      match firstIndexOfChar ']' s with
      | none => none
      | some e =>
        if e + 1 == s.length then none
        else if e + 1 == i then
          if (s.drop 1).contains '[' || (s.drop (e + 1)).contains ']' then none
          else some ((s.take e).drop 1, s.drop (i + 1))
        else none
    else
      let host := s.take i
      if host.contains ':' then none
      else if s.contains '[' || s.contains ']' then none
      else some (host, s.drop (i + 1))

/-- Character-list core of geolocation.normalizeDomain. -/
def normCore (raw : List Char) : List Char :=
  let d0 := trimWhile isGoSpace raw
  let d1 := trimPrefixL "http://".data d0
  let d2 := trimPrefixL "https://".data d1
  let d3 := trimSuffixL "/".data d2
  let d4 := trimSuffixL ".".data d3
  let d5 :=
    match splitHostPortL d4 with
    | some (host, _) => host
    | none => d4
  toLowerL (trimWhile isGoSpace d5)

/-- geolocation.normalizeDomain: strip scheme, trailing slash and dot and a
port, then lowercase the trimmed remainder. -/
def normalizeDomain (raw : String) : String := ⟨normCore raw.data⟩

/-- transaction.stringify: strings pass through, numbers are formatted in
decimal, anything else becomes empty. -/
def stringify : JValue → String
  | .jstr t => t
  | .jnum n => toString n
  | _ => ""

/-- One step of the key loop inside transaction.parseDeliveredDrops:
a key whose value is the string unavailable (case-folded) aborts the whole
lookup, a parseable value is returned, anything else falls through to the
next key. -/
def deliveredLoop (meta : JObj) : List String → Option Int
  | [] => none
  | key :: rest =>
    match jLookup meta key with
    | none => deliveredLoop meta rest
    | some value =>
      if (match value with
          | .jstr s => goEqualFold s "unavailable"
          | _ => false) then none
      else
        match parseDrops value with
        | some drops => some drops
        | none => deliveredLoop meta rest

/-- transaction.parseDeliveredDrops over the metadata object. -/
def parseDeliveredDrops (meta : JObj) : Option Int :=
  deliveredLoop meta ["delivered_amount", "DeliveredAmount"]

/-- transaction.isPartialPayment: the tfPartialPayment bit of the Flags
field. -/
def isPartialPayment (txnRaw : JObj) : Bool :=
  match toUint32 (jLookupV txnRaw "Flags") with
  | none => false
  | some flags => (flags &&& tfPartialPayment) != 0

/-- transaction.parsePaymentAmountDrops: prefer the delivered amount from
metadata; with no usable delivered amount a partial payment is rejected and
any other payment falls back to the top-level Amount. -/
def parsePaymentAmountDrops (msg txnRaw : JObj) : Option Int :=
  let delivered : Option Int :=
    match jLookupV msg "meta" with
    | .jobj meta => parseDeliveredDrops meta
    | _ => none
  match delivered with
  | some drops => some drops
  | none =>
    if isPartialPayment txnRaw then none
    else parseDrops (jLookupV txnRaw "Amount")

/-- The listener's base58 alphabet for XRPL account identifiers. -/
def xrplBase58Alphabet : String :=
  "123456789ABCDEFGHJKLMNPQRSTUVWXYZabcdefghijkmnopqrstuvwxyz"

/-- transaction.isLikelyXRPLAccount: length 25 to 40, leading r, characters
restricted to the XRPL base58 alphabet. -/
def isLikelyXRPLAccount (account : String) : Bool :=
  if account.length < 25 || account.length > 40 then false
  else if !(['r'].isPrefixOf account.data) then false
  else account.data.all (fun c => xrplBase58Alphabet.data.contains c)

/-- Go strings.Contains: the needle occurs contiguously in the haystack. -/
def containsSeq (needle : List Char) : List Char → Bool
  | [] => needle.isEmpty
  | c :: rest => needle.isPrefixOf (c :: rest) || containsSeq needle rest

/-- transaction.shouldParseAsAccount on an already lowercased key. -/
def shouldParseAsAccount (key : String) : Bool :=
  if key = "account" || key = "destination" || key = "issuer" || key = "owner" ||
      key = "counterparty" || key = "regularkey" then true
  else
    containsSeq "issuer".data key.data ||
      containsSeq "account".data key.data ||
      containsSeq "destination".data key.data ||
      containsSeq "owner".data key.data

/-- The add closure shared by gatherGeoCandidates and prioritizeCandidates:
trim, keep only well-shaped unseen accounts, append. -/
def addCandidate (acc : List String) (candidate : String) : List String :=
  let trimmed := goTrimSpace candidate
  if isLikelyXRPLAccount trimmed = false then acc
  else if acc.contains trimmed then acc
  else acc ++ [trimmed]

mutual

/-- transaction.collectCandidateAccounts: walk a decoded JSON tree and feed
every string sitting under an account-like key to the accumulator. -/
def collectCandidateAccounts : JValue → List String → List String
  | .jobj fields, acc => collectFields fields acc
  | .jarr items, acc => collectItems items acc
  | _, acc => acc

/-- Object part of the candidate walk, in document order. -/
def collectFields : List (String × JValue) → List String → List String
  | [], acc => acc
  | (key, val) :: rest, acc =>
    let lowerKey := goToLower (goTrimSpace key)
    let acc1 :=
      if shouldParseAsAccount lowerKey then
        match val with
        | .jstr s => addCandidate acc s
        | _ => acc
      else acc
    collectFields rest (collectCandidateAccounts val acc1)

/-- Array part of the candidate walk. -/
def collectItems : List JValue → List String → List String
  | [], acc => acc
  | item :: rest, acc => collectItems rest (collectCandidateAccounts item acc)

end

/-- transaction.gatherGeoCandidates: source, destination, then every
account-like string found in the transaction and its metadata, de-duplicated
and truncated to maxCandidates when positive. -/
def gatherGeoCandidates (txnRaw : JObj) (meta : JValue) (account destination : String)
    (maxCandidates : Int) : List String :=
  let c0 := addCandidate [] account
  let c1 := addCandidate c0 destination
  let c2 := collectCandidateAccounts (.jobj txnRaw) c1
  let c3 := collectCandidateAccounts meta c2
  if 0 < maxCandidates ∧ maxCandidates < (c3.length : Int) then c3.take maxCandidates.toNat
  else c3

/-- models.Transaction restricted to the fields the listener populates. -/
structure Transaction where
  Hash : String
  LedgerIndex : Nat
  Account : String
  Destination : String
  TransactionType : String
  Amount : String
  Fee : String
  TransactionResult : String
  Timestamp : Int
  Validated : Bool
  GeoCandidates : List String
deriving DecidableEq, Repr

/-- transaction.Listener.parseTransaction: ok none models the (nil, nil)
skip, error models a (nil, err) rejection, and ok (some tx) is an emitted
transaction.  The Go assignment sequence (zero value, then ledger index,
engine result and metadata fallbacks) is translated into a chain of local
bindings feeding one record. -/
def parseTransaction (minPaymentDrops : Int) (maxGeoCandidates : Int) (now : Int)
    (msg : JObj) : Except String (Option Transaction) :=
  let msgType := jStrD (jLookupV msg "type")
  if msgType ≠ "transaction" then .ok none
  else
    let validated := jBoolD (jLookupV msg "validated")
    if validated = false then .ok none
    else
      match jLookupV msg "transaction" with
      | .jobj txnRaw =>
        let txType := jStrD (jLookupV txnRaw "TransactionType")
        if txType ≠ "Payment" then .ok none
        else
          match parsePaymentAmountDrops msg txnRaw with
          | none => .ok none
          | some amountDrops =>
            if amountDrops < minPaymentDrops then .ok none
            else
              let hash := stringify (jLookupV txnRaw "hash")
              let account := stringify (jLookupV txnRaw "Account")
              let destination := stringify (jLookupV txnRaw "Destination")
              if hash = "" ∨ account = "" ∨ destination = "" then
                .error "missing required payment fields"
              else
                let ledgerIndex :=
                  match toUint32 (jLookupV msg "ledger_index") with
                  | some li => li
                  | none => 0
                let resultFromEngine :=
                  match jLookupV msg "engine_result" with
                  | .jstr result => result
                  | _ => ""
                let transactionResult :=
                  if resultFromEngine = "" then
                    match jLookupV msg "meta" with
                    | .jobj meta => stringify (jLookupV meta "TransactionResult")
                    | _ => resultFromEngine
                  else resultFromEngine
                if transactionResult ≠ "tesSUCCESS" then .ok none
                else
                  .ok (some
                    { Hash := hash
                      LedgerIndex := ledgerIndex
                      Account := account
                      Destination := destination
                      TransactionType := txType
                      Amount := toString amountDrops
                      Fee := stringify (jLookupV txnRaw "Fee")
                      TransactionResult := transactionResult
                      Timestamp := toUnixTimestamp now (jLookupV msg "date")
                      Validated := validated
                      GeoCandidates :=
                        gatherGeoCandidates txnRaw (jLookupV msg "meta")
                          account destination maxGeoCandidates })
      | _ => .error "missing transaction payload"

/-! Geolocation resolver (package geolocation).  The GeoLite database, DNS
and the upstream rippled client are injected as an environment; the
in-memory caches are threaded as explicit state; the persisted cache file
is the structured payload written by persistCache. -/

/-- models.GeoLocation.  Coordinates are embedded as rationals. -/
structure GeoLocation where
  Latitude : Rat
  Longitude : Rat
  CountryCode : String
  City : String
  ValidatorAddress : String
deriving DecidableEq, Repr

/-- geolocation.geoCacheEntry. -/
structure GeoCacheEntry where
  country_code : String
  city : String
  latitude : Rat
  longitude : Rat
  updated_at : Int
deriving DecidableEq, Repr

/-- geolocation.geoCacheFile; entries is none when the JSON field is
absent. -/
structure GeoCacheFile where
  version : Int
  entries : Option (List (String × GeoCacheEntry))
deriving DecidableEq, Repr

/-- geolocation.cacheVersion. -/
def cacheVersion : Int := 2

/-- The mutable maps of geolocation.Resolver (cache and
missingAccountUntil), as association lists. -/
structure ResolverState where
  cache : List (String × GeoCacheEntry)
  missingAccountUntil : List (String × Int)
deriving DecidableEq, Repr

/-- Go map assignment m[key] = value on an association list. -/
def alSet {β : Type} : List (String × β) → String → β → List (String × β)
  | [], key, value => [(key, value)]
  | (k, v) :: rest, key, value =>
    if k = key then (key, value) :: rest else (k, v) :: alSet rest key value

/-- Go delete(m, key) on an association list. -/
def alRemove {β : Type} (m : List (String × β)) (key : String) : List (String × β) :=
  m.filter (fun kv => kv.1 ≠ key)

/-- An IP address as returned by the injected DNS lookup: its textual form
and whether it is an IPv4 address (ip.To4() != nil). -/
structure IPAddr where
  text : String
  isV4 : Bool
deriving DecidableEq, Repr

/-- The effects a single resolver call can perform: the account_info
command against the upstream client, the DNS lookup, and the GeoLite city
lookup by IP. -/
structure GeoEnv where
  accountInfo : Except String JValue
  dns : String → Except String (List IPAddr)
  geoByIP : String → Except String (Option GeoLocation)

/-- Count of external calls made during one resolver invocation. -/
structure CallStats where
  commands : Nat
  dnsCalls : Nat
  dbCalls : Nat
deriving DecidableEq, Repr

/-- geolocation.Resolver.getCachedGeo: a cache hit is returned as a fresh
GeoLocation value with an empty validator address. -/
def getCachedGeo (st : ResolverState) (key : String) : Option GeoLocation :=
  match List.lookup key st.cache with
  | none => none
  | some entry => some ⟨entry.latitude, entry.longitude, entry.country_code, entry.city, ""⟩

/-- geolocation.Resolver.setCachedGeo. -/
def setCachedGeo (st : ResolverState) (key : String) (geo : GeoLocation) (now : Int) :
    ResolverState :=
  { st with cache := alSet st.cache key ⟨geo.CountryCode, geo.City, geo.Latitude, geo.Longitude, now⟩ }

/-- geolocation.pickIP: first IPv4 address, else the first address. -/
def pickIP (ips : List IPAddr) : String :=
  match ips.find? (·.isV4) with
  | some ip => ip.text
  | none => ((ips.head?).map (·.text)).getD ""

/-- Decode one hexadecimal digit. -/
def hexDigitVal (c : Char) : Option Nat :=
  if '0' ≤ c ∧ c ≤ '9' then some (c.toNat - 48)
  else if 'a' ≤ c ∧ c ≤ 'f' then some (c.toNat - 87)
  else if 'A' ≤ c ∧ c ≤ 'F' then some (c.toNat - 55)
  else none

/-- Go hex.DecodeString followed by string(bytes); each byte is embedded as
the character of its code point (faithful for the ASCII domains the code
handles). -/
def hexDecodeL : List Char → Option (List Char)
  | [] => some []
  | [_] => none
  | a :: b :: rest =>
    match hexDigitVal a, hexDigitVal b, hexDecodeL rest with
    | some ha, some hb, some tail => some (Char.ofNat (16 * ha + hb) :: tail)
    | _, _, _ => none

/-- hex decode into a string. -/
def hexDecode (s : String) : Option String := (hexDecodeL s.data).map fun l => ⟨l⟩

/-- geolocation.fetchAccountDomain applied to the result of the upstream
account_info command: extract and hex-decode account_data.Domain, trim NUL
bytes and whitespace, and normalize. -/
def fetchAccountDomain (resp : Except String JValue) : Except String String :=
  match resp with
  | .error e => .error e
  | .ok r =>
    match r with
    | .jobj respMap =>
      match jLookup respMap "result" with
      | some (.jobj result) =>
        match jLookup result "account_data" with
        | some (.jobj accountData) =>
          let domainHex := jStrD (jLookupV accountData "Domain")
          if domainHex = "" then .ok ""
          else
            match hexDecode domainHex with
            | none => .error "failed to decode account domain"
            | some domainRaw =>
              let domain := goTrimSpace ⟨trimWhile (fun c => c == '\x00') domainRaw.data⟩
              .ok (normalizeDomain domain)
        | _ => .ok ""
      | _ => .error "account_info missing result"
    | _ => .error "unexpected account_info response"

/-- geolocation.isMissingAccountError on the message of a non-nil error. -/
def isMissingAccountError (msg : String) : Bool :=
  let m := (goToLower msg).data
  containsSeq "actnotfound".data m || containsSeq "account not found".data m ||
    containsSeq "no account".data m || containsSeq "malformedaddress".data m

/-- geolocation.Resolver.ResolveDomainGeo, with explicit state, environment
and call counters.  On success the returned GeoLocation is never absent, so
the ok payload is the location itself. -/
def resolveDomainGeo (st : ResolverState) (env : GeoEnv) (now : Int) (rawDomain : String) :
    Except String GeoLocation × ResolverState × CallStats :=
  let domain := normalizeDomain rawDomain
  if domain = "" then (.error "invalid domain", st, ⟨0, 0, 0⟩)
  else
    match getCachedGeo st ("domain:" ++ domain) with
    | some geo => (.ok geo, st, ⟨0, 0, 0⟩)
    | none =>
      match env.dns domain with
      | .error e => (.error ("failed to resolve domain " ++ domain ++ ": " ++ e), st, ⟨0, 1, 0⟩)
      | .ok ips =>
        if ips.isEmpty then (.error ("domain " ++ domain ++ " resolved with no IPs"), st, ⟨0, 1, 0⟩)
        else
          let ip := pickIP ips
          match getCachedGeo st ("ip:" ++ ip) with
          | some geo => (.ok geo, setCachedGeo st ("domain:" ++ domain) geo now, ⟨0, 1, 0⟩)
          | none =>
            match env.geoByIP ip with
            | .error e => (.error e, st, ⟨0, 1, 1⟩)
            | .ok none => (.error ("no geolocation found for ip " ++ ip), st, ⟨0, 1, 1⟩)
            | .ok (some geo) =>
              let st1 := setCachedGeo st ("ip:" ++ ip) geo now
              let st2 := setCachedGeo st1 ("domain:" ++ domain) geo now
              (.ok geo, st2, ⟨0, 1, 1⟩)

/-- geolocation.Resolver.ResolveAccountGeo, with explicit state, environment
and call counters; isAccountMissing (including its expiry-deletion side
effect), markAccountMissing and clearMissingAccount are inlined at their
call sites, time.Now is the parameter now and the configured negative TTL
is the parameter ttl. -/
def resolveAccountGeo (st : ResolverState) (env : GeoEnv) (now ttl : Int)
    (accountRaw : String) :
    Except String (Option GeoLocation) × ResolverState × CallStats :=
  let account := goTrimSpace accountRaw
  if account = "" then (.ok none, st, ⟨0, 0, 0⟩)
  else
    match getCachedGeo st ("account:" ++ account) with
    | some geo => (.ok (some { geo with ValidatorAddress := account }), st, ⟨0, 0, 0⟩)
    | none =>
      let missing : Bool × ResolverState :=
        match List.lookup account st.missingAccountUntil with
        | none => (false, st)
        | some until_ =>
          if now > until_ then
            (false, { st with missingAccountUntil := alRemove st.missingAccountUntil account })
          else (true, st)
      match missing with
      | (true, st1) => (.ok none, st1, ⟨0, 0, 0⟩)
      | (false, st1) =>
        match fetchAccountDomain env.accountInfo with
        | .error e =>
          if isMissingAccountError e then
            (.error e,
             { st1 with missingAccountUntil := alSet st1.missingAccountUntil account (now + ttl) },
             ⟨1, 0, 0⟩)
          else (.error e, st1, ⟨1, 0, 0⟩)
        | .ok domain =>
          if goTrimSpace domain = "" then
            (.ok none,
             { st1 with missingAccountUntil := alSet st1.missingAccountUntil account (now + ttl) },
             ⟨1, 0, 0⟩)
          else
            match resolveDomainGeo st1 env now domain with
            | (.error e, st2, stats) =>
              (.error e, st2, ⟨1 + stats.commands, stats.dnsCalls, stats.dbCalls⟩)
            | (.ok geo0, st2, stats) =>
              let geo := { geo0 with ValidatorAddress := account }
              let st3 := setCachedGeo st2 ("account:" ++ account) geo now
              let st4 := { st3 with missingAccountUntil := alRemove st3.missingAccountUntil account }
              (.ok (some geo), st4, ⟨1 + stats.commands, stats.dnsCalls, stats.dbCalls⟩)

/-- geolocation.Resolver.persistCache: the structured payload written to the
cache file. -/
def persistCache (st : ResolverState) : GeoCacheFile := ⟨cacheVersion, some st.cache⟩

/-- geolocation.Resolver.loadCache: adopt the file's entries only when the
version matches and entries are present. -/
def loadCache (st : ResolverState) (file : GeoCacheFile) : ResolverState :=
  match file.entries with
  | none => st
  | some entries => if file.version = cacheVersion then { st with cache := entries } else st

/-- A freshly constructed resolver that loaded the given cache file
(geolocation.NewResolver followed by loadCache). -/
def newResolverState (file : GeoCacheFile) : ResolverState := loadCache ⟨[], []⟩ file

/-! Validator fetcher (package validator in xrpl-service). -/

/-- models.Validator restricted to the fields the fetcher reads and
writes. -/
structure Validator where
  Address : String
  Domain : String
  Name : String
  Latitude : Rat
  Longitude : Rat
  CountryCode : String
  City : String
deriving DecidableEq, Repr

/-- validator.validatorMetadataEntry. -/
structure ValidatorMetadataEntry where
  Address : String
  Domain : String
  Name : String
  Latitude : Rat
  Longitude : Rat
  CountryCode : String
  City : String
  LastSeenAt : Int
deriving DecidableEq, Repr

/-- One element step of validator.Fetcher.preserveMappedCoverage: restore
coordinates of a still-unmapped validator from the previous in-memory
snapshot, else from persisted metadata.  Validators with an empty address
are skipped by the Go loop. -/
def preserveOne (previous : List (String × Validator))
    (metadataCache : List (String × ValidatorMetadataEntry)) (v : Validator) : Validator :=
  if v.Address = "" then v
  else if v.Latitude ≠ 0 ∨ v.Longitude ≠ 0 then v
  else
    match List.lookup v.Address previous with
    | some prev =>
      if prev.Latitude ≠ 0 ∨ prev.Longitude ≠ 0 then
        { v with
          Latitude := prev.Latitude
          Longitude := prev.Longitude
          CountryCode := if v.CountryCode = "" ∨ v.CountryCode = "XX" then prev.CountryCode else v.CountryCode
          City := if v.City = "" ∨ v.City = "Unknown" then prev.City else v.City }
      else
        match List.lookup v.Address metadataCache with
        | some entry =>
          if entry.Latitude ≠ 0 ∨ entry.Longitude ≠ 0 then
            { v with
              Latitude := entry.Latitude
              Longitude := entry.Longitude
              CountryCode := if v.CountryCode = "" ∨ v.CountryCode = "XX" then entry.CountryCode else v.CountryCode
              City := if v.City = "" ∨ v.City = "Unknown" then entry.City else v.City }
          else v
        | none => v
    | none =>
      match List.lookup v.Address metadataCache with
      | some entry =>
        if entry.Latitude ≠ 0 ∨ entry.Longitude ≠ 0 then
          { v with
            Latitude := entry.Latitude
            Longitude := entry.Longitude
            CountryCode := if v.CountryCode = "" ∨ v.CountryCode = "XX" then entry.CountryCode else v.CountryCode
            City := if v.City = "" ∨ v.City = "Unknown" then entry.City else v.City }
        else v
      | none => v

/-- validator.Fetcher.preserveMappedCoverage over the refreshed validator
list. -/
def preserveMappedCoverage (previous : List (String × Validator))
    (metadataCache : List (String × ValidatorMetadataEntry)) (validators : List Validator) :
    List Validator :=
  validators.map (preserveOne previous metadataCache)

/-- The snapshot commit at the end of validator.Fetcher.Fetch: a fresh
address-to-validator map assigned in list order (later entries win). -/
def commitValidators (validators : List Validator) : List (String × Validator) :=
  validators.foldl (fun m v => alSet m v.Address v) []

/-- Field update step of validator.Fetcher.updatePersistedMetadata for one
validator against its (existing or fresh) metadata entry. -/
def updateMetadataEntry (now : Int) (entry : ValidatorMetadataEntry) (v : Validator) :
    ValidatorMetadataEntry :=
  let e1 := if v.Domain ≠ "" ∧ entry.Domain ≠ v.Domain then { entry with Domain := v.Domain } else entry
  let e2 := if v.Name ≠ "" ∧ e1.Name ≠ v.Name then { e1 with Name := v.Name } else e1
  let e3 :=
    if (v.Latitude ≠ 0 ∨ v.Longitude ≠ 0) ∧
        (e2.Latitude ≠ v.Latitude ∨ e2.Longitude ≠ v.Longitude ∨ e2.City ≠ v.City ∨
          e2.CountryCode ≠ v.CountryCode) then
      { e2 with
        Latitude := v.Latitude
        Longitude := v.Longitude
        CountryCode := v.CountryCode
        City := v.City }
    else e2
  if e3.LastSeenAt ≠ now then { e3 with LastSeenAt := now } else e3

/-- validator.Fetcher.updatePersistedMetadata: fold the refreshed validator
list over the persisted metadata map.  Validators with an empty address are
skipped. -/
def updatePersistedMetadata (now : Int)
    (metadataCache : List (String × ValidatorMetadataEntry)) (validators : List Validator) :
    List (String × ValidatorMetadataEntry) :=
  validators.foldl
    (fun cache v =>
      if v.Address = "" then cache
      else
        let entry :=
          match List.lookup v.Address cache with
          | some e => e
          | none => { Address := v.Address, Domain := "", Name := "", Latitude := 0,
                      Longitude := 0, CountryCode := "", City := "", LastSeenAt := 0 }
        alSet cache v.Address (updateMetadataEntry now entry v))
    metadataCache

/-- models.ServerStatus. -/
structure ServerStatus where
  Connected : Bool
  ServerState : String
  LedgerIndex : Int
  NetworkID : Int
  PeerCount : Int
  CompleteLedgers : String
  Uptime : Int
  LastSync : Int
deriving DecidableEq, Repr

/-- validator.getMap. -/
def getMap (parent : JObj) (key : String) : JObj :=
  match jLookup parent key with
  | some (.jobj m) => m
  | _ => []

/-- validator.getString. -/
def getString (parent : JObj) (key : String) : String :=
  match jLookup parent key with
  | some (.jstr s) => s
  | _ => ""

/-- validator.getInt64 (numbers are embedded as integers). -/
def getInt64 (parent : JObj) (key : String) : Int :=
  match jLookup parent key with
  | some (.jnum n) => n
  | _ => 0

/-- validator.parseServerStatusResult; time.Now is the parameter now, and
the uint32 and uint16 narrowing conversions are taken mod 2 ^ 32 and
2 ^ 16. -/
def parseServerStatusResult (now : Int) (result : JValue) : Except String ServerStatus :=
  match result with
  | .jobj resultMap =>
    match jLookup resultMap "result" with
    | some (.jobj payload) =>
      match jLookup payload "info" with
      | some (.jobj info) =>
        .ok
          { Connected := true
            ServerState := getString info "server_state"
            LedgerIndex := (getInt64 (getMap info "validated_ledger") "seq").emod (2 ^ 32)
            NetworkID := (getInt64 info "network_id").emod (2 ^ 16)
            PeerCount := getInt64 info "peers"
            CompleteLedgers := getString info "complete_ledgers"
            Uptime := getInt64 info "uptime"
            LastSync := now }
      | _ => .error "missing server_info info payload"
    | _ => .error "missing server_info result payload"
  | _ => .error "unexpected server_info response format"

/-- One attempt of validator.getServerStatusFromEndpoint: a JSON-RPC
server_info fetch followed by parsing.  The network outcome of attempt
number n is supplied by the fetch function. -/
def attemptOnce (now : Int) (fetch : Nat → Except String JValue) (attempt : Nat) :
    Except String ServerStatus :=
  match fetch attempt with
  | .error e => .error e
  | .ok v => parseServerStatusResult now v

/-- The retry loop of validator.getServerStatusFromEndpoint: attempts are
numbered from the given attempt, remaining counts attempts left, lastErr
carries the error of the previous attempt.  A nil error with a nil status
(possible only when the loop body never ran) is ok none. -/
def endpointAttemptLoop (now : Int) (fetch : Nat → Except String JValue) :
    Nat → Nat → Option String → Except String (Option ServerStatus)
  | _, 0, lastErr =>
    match lastErr with
    | none => .ok none
    | some e => .error e
  | attempt, remaining + 1, _ =>
    match attemptOnce now fetch attempt with
    | .ok status => .ok (some status)
    | .error e => endpointAttemptLoop now fetch (attempt + 1) remaining (some e)

/-- validator.Fetcher.getServerStatusFromEndpoint with the configured
retry count. -/
def getServerStatusFromEndpoint (now : Int) (retries : Nat)
    (fetch : Nat → Except String JValue) : Except String (Option ServerStatus) :=
  endpointAttemptLoop now fetch 1 retries none

/-- The endpoint loop of validator.Fetcher.GetServerStatus: try each
configured health endpoint in order, collecting error strings; when all
fail return the aggregate error; with no collected errors fall through to
the general upstream client's GetServerInfo result. -/
def serverStatusLoop (now : Int) (retries : Nat)
    (clientServerInfo : Except String JValue) :
    List (String × (Nat → Except String JValue)) → List String →
    Except String (Option ServerStatus)
  | [], endpointErrors =>
    if endpointErrors.isEmpty = false then
      .error ("all network health endpoints failed: " ++ String.intercalate " | " endpointErrors)
    else
      match clientServerInfo with
      | .error e => .error e
      | .ok result =>
        match parseServerStatusResult now result with
        | .error e => .error e
        | .ok status => .ok (some status)
  | (endpointURL, fetch) :: rest, endpointErrors =>
    match getServerStatusFromEndpoint now retries fetch with
    | .ok status => .ok status
    | .error e => serverStatusLoop now retries clientServerInfo rest
        (endpointErrors ++ [endpointURL ++ ": " ++ e])

/-- validator.Fetcher.GetServerStatus. -/
def getServerStatus (now : Int) (retries : Nat)
    (endpoints : List (String × (Nat → Except String JValue)))
    (clientServerInfo : Except String JValue) : Except String (Option ServerStatus) :=
  serverStatusLoop now retries clientServerInfo endpoints []

/-! Rippled client (package rippled). -/

/-- The observable outcome of the HTTP POST performed by rippled
Client.Command: a transport error, or a status code together with the
JSON-decode result of the response body (none when the body does not decode
into a map). -/
structure HTTPOutcome where
  status : Int
  body : Option JObj

/-- rippled.Client.Command applied to the HTTP outcome of its request: the
body must decode into a map and must not contain an error field; the HTTP
status code is never inspected. -/
def rippledCommand (transport : Except String HTTPOutcome) : Except String JValue :=
  match transport with
  | .error e => .error e
  | .ok outcome =>
    match outcome.body with
    | none => .error "json decode error"
    | some result =>
      match jLookup result "error" with
      | some _ => .error "JSON-RPC error"
      | none => .ok (.jobj result)

/-! Concrete inputs used by the witnesses and counterexamples below. -/

/-- Metadata object of a stream frame whose delivered amount is reported as
unavailable. -/
def c1Meta : JObj :=
  [("TransactionResult", .jstr "tesSUCCESS"), ("delivered_amount", .jstr "unavailable")]

/-- Inner transaction payload of that frame: an ordinary (non-partial)
payment. -/
def c1Txn : JObj :=
  [("TransactionType", .jstr "Payment"), ("hash", .jstr "DEF456"),
   ("Account", .jstr "rHb9CJAWyB4rj91VRWn96DkukG4bwdtyTh"),
   ("Destination", .jstr "rLHzPsX6oXkzU9cRHEwKmMSWJfpJ9nE4VY"),
   ("Amount", .jstr "15000000000"), ("Fee", .jstr "12"), ("Flags", .jnum 0)]

/-- A validated payment frame carrying delivered_amount unavailable without
the partial-payment flag. -/
def c1Msg : JObj :=
  [("type", .jstr "transaction"), ("validated", .jbool true), ("date", .jnum 760000000),
   ("transaction", .jobj c1Txn), ("meta", .jobj c1Meta)]

/-- The transaction the listener emits for c1Msg. -/
def c1Tx : Transaction :=
  { Hash := "DEF456", LedgerIndex := 0,
    Account := "rHb9CJAWyB4rj91VRWn96DkukG4bwdtyTh",
    Destination := "rLHzPsX6oXkzU9cRHEwKmMSWJfpJ9nE4VY",
    TransactionType := "Payment", Amount := "15000000000", Fee := "12",
    TransactionResult := "tesSUCCESS", Timestamp := 1706684800, Validated := true,
    GeoCandidates := ["rHb9CJAWyB4rj91VRWn96DkukG4bwdtyTh", "rLHzPsX6oXkzU9cRHEwKmMSWJfpJ9nE4VY"] }

/-- A validated payment frame above the threshold with a Ripple-epoch
date. -/
def c3Msg : JObj :=
  [("type", .jstr "transaction"), ("validated", .jbool true), ("date", .jnum 760000000),
   ("transaction", .jobj
     [("TransactionType", .jstr "Payment"), ("hash", .jstr "ABC123"),
      ("Account", .jstr "rHb9CJAWyB4rj91VRWn96DkukG4bwdtyTh"),
      ("Destination", .jstr "rLHzPsX6oXkzU9cRHEwKmMSWJfpJ9nE4VY"),
      ("Amount", .jstr "15000000000"), ("Fee", .jstr "12"), ("Flags", .jnum 0)]),
   ("meta", .jobj [("TransactionResult", .jstr "tesSUCCESS")])]

/-- The transaction the listener emits for c3Msg. -/
def c3Tx : Transaction :=
  { Hash := "ABC123", LedgerIndex := 0,
    Account := "rHb9CJAWyB4rj91VRWn96DkukG4bwdtyTh",
    Destination := "rLHzPsX6oXkzU9cRHEwKmMSWJfpJ9nE4VY",
    TransactionType := "Payment", Amount := "15000000000", Fee := "12",
    TransactionResult := "tesSUCCESS", Timestamp := 1706684800, Validated := true,
    GeoCandidates := ["rHb9CJAWyB4rj91VRWn96DkukG4bwdtyTh", "rLHzPsX6oXkzU9cRHEwKmMSWJfpJ9nE4VY"] }

/-- Source, destination, issuer and owner addresses of the candidate
prioritization scenario. -/
def c7S : String := "rHb9CJAWyB4rj91VRWn96DkukG4bwdtyTh"

/-- Destination of the candidate prioritization scenario. -/
def c7D : String := "rLHzPsX6oXkzU9cRHEwKmMSWJfpJ9nE4VY"

/-- Issuer of the candidate prioritization scenario. -/
def c7I : String := "rPT1Sjq2YGrBMTttX4GZHjKu9dyfzbpAYe"

/-- Owner of the candidate prioritization scenario. -/
def c7O : String := "rDsbeomae4FXwgQTJp9Rs64Qg9vDiTCdBv"

/-- Transaction payload holding source, destination and an issuer inside
SendMax. -/
def c7Txn : JObj :=
  [("Account", .jstr c7S), ("Destination", .jstr c7D),
   ("SendMax", .jobj [("currency", .jstr "USD"), ("issuer", .jstr c7I), ("value", .jstr "100")])]

/-- Metadata holding an owner inside an affected node. -/
def c7MetaVal : JValue :=
  .jobj [("AffectedNodes", .jarr
    [.jobj [("ModifiedNode", .jobj [("FinalFields", .jobj [("Owner", .jstr c7O)])])]])]

/-- account_data of the negative-cache scenario: no Domain field. -/
def c4DataFields : JObj :=
  [("Account", .jstr "rHb9CJAWyB4rj91VRWn96DkukG4bwdtyTh"), ("Balance", .jstr "1000")]

/-- result payload of the negative-cache scenario. -/
def c4ResultFields : JObj := [("account_data", .jobj c4DataFields)]

/-- A response of account_info whose account_data has no Domain field. -/
def c4Resp : JObj := [("result", .jobj c4ResultFields)]

/-- Environment of the negative-cache scenario: the upstream answers
account_info with c4Resp; DNS and the city database are never reached. -/
def c4Env : GeoEnv :=
  { accountInfo := .ok (.jobj c4Resp)
    dns := fun _ => .error "dns not reached"
    geoByIP := fun _ => .error "geolite not reached" }

/-- Account of the negative-cache scenario. -/
def c4Account : String := "rHb9CJAWyB4rj91VRWn96DkukG4bwdtyTh"

/-- Paris, as the city database reports it for the scenario address. -/
def c5Paris : GeoLocation :=
  { Latitude := 48867/1000, Longitude := 2333/1000, CountryCode := "FR", City := "Paris",
    ValidatorAddress := "" }

/-- Environment of the persisted-cache scenario writer: one DNS answer and
one city-database record. -/
def c5Env : GeoEnv :=
  { accountInfo := .error "account_info not reached"
    dns := fun domain => if domain = "example.org" then .ok [⟨"93.184.216.34", true⟩] else .error "nxdomain"
    geoByIP := fun ip => if ip = "93.184.216.34" then .ok (some c5Paris) else .error "no record" }

/-- Environment of the reader instance: both DNS and the database are
disabled, so any use of them fails. -/
def c5EnvReader : GeoEnv :=
  { accountInfo := .error "account_info disabled"
    dns := fun _ => .error "dns disabled"
    geoByIP := fun _ => .error "geolite disabled" }

/-- The cache entry written for Paris at time 50. -/
def c5Entry : GeoCacheEntry :=
  { country_code := "FR", city := "Paris", latitude := 48867/1000, longitude := 2333/1000,
    updated_at := 50 }

/-- Resolver state after the writer resolves example.org. -/
def c5St1 : ResolverState :=
  { cache := [("ip:93.184.216.34", c5Entry), ("domain:example.org", c5Entry)],
    missingAccountUntil := [] }

/-- Previous in-memory snapshot of the coverage-lock counterexample: the
empty address is mapped. -/
def c2Prev : List (String × Validator) :=
  [("", { Address := "", Domain := "d.example", Name := "d", Latitude := 1, Longitude := 2,
          CountryCode := "FR", City := "Paris" })]

/-- Refreshed validator list of the coverage-lock counterexample: the same
empty-address validator, unmapped. -/
def c2New : List Validator :=
  [{ Address := "", Domain := "d.example", Name := "d", Latitude := 0, Longitude := 0,
     CountryCode := "XX", City := "Unknown" }]

/-- A mapped validator of the amended coverage-lock witness. -/
def c2Addr : String := "nHB8QMKGt9VB4Vg71VszjBVQnDW3v3QudM4DwFaJfy96bj4Pv9fA"

/-- Previous snapshot of the amended coverage-lock witness. -/
def c2PrevW : List (String × Validator) :=
  [(c2Addr, { Address := c2Addr, Domain := "v.example", Name := "v", Latitude := 52, Longitude := 13,
              CountryCode := "DE", City := "Berlin" })]

/-- Refreshed list of the amended coverage-lock witness: same address, now
unmapped. -/
def c2NewW : List Validator :=
  [{ Address := c2Addr, Domain := "v.example", Name := "v", Latitude := 0, Longitude := 0,
     CountryCode := "XX", City := "Unknown" }]

/-- The restored validator the amended coverage-lock witness expects. -/
def c2ValW : Validator :=
  { Address := c2Addr, Domain := "v.example", Name := "v", Latitude := 52, Longitude := 13,
    CountryCode := "DE", City := "Berlin" }

/-- A server_info response with the payload shape GetServerStatus parses. -/
def c8GoodInfo : JValue :=
  .jobj [("result", .jobj [("info", .jobj
    [("server_state", .jstr "full"), ("peers", .jnum 42), ("uptime", .jnum 1000),
     ("network_id", .jnum 0), ("complete_ledgers", .jstr "32570-90000000"),
     ("validated_ledger", .jobj [("seq", .jnum 90000000)])])])]

/-- The health endpoint of the fall-through counterexample: every attempt
fails with a dial error. -/
def c8Endpoint : String × (Nat → Except String JValue) :=
  ("https://xrplcluster.com", fun _ => .error "connection refused")

/-- Persisted metadata of the metadata-monotonicity witness. -/
def c10Cache : List (String × ValidatorMetadataEntry) :=
  [(c2Addr, { Address := c2Addr, Domain := "v.example", Name := "v", Latitude := 5, Longitude := 6,
              CountryCode := "DE", City := "Berlin", LastSeenAt := 10 })]

/-- Refreshed validators of the metadata-monotonicity witness: the known
validator reappears unmapped. -/
def c10New : List Validator :=
  [{ Address := c2Addr, Domain := "v.example", Name := "v", Latitude := 0, Longitude := 0,
     CountryCode := "XX", City := "Unknown" }]

/-- The stored metadata entry of the monotonicity witness. -/
def c10Entry : ValidatorMetadataEntry :=
  { Address := c2Addr, Domain := "v.example", Name := "v", Latitude := 5, Longitude := 6,
    CountryCode := "DE", City := "Berlin", LastSeenAt := 10 }

/-- The same entry after the refresh at time 99: only last_seen_at moved. -/
def c10EntryW : ValidatorMetadataEntry :=
  { Address := c2Addr, Domain := "v.example", Name := "v", Latitude := 5, Longitude := 6,
    CountryCode := "DE", City := "Berlin", LastSeenAt := 99 }

/-! Theorems.  Claim-level results, preceded by the helper lemmas they
share. -/

/-- C3: every transaction emitted by parseTransaction is validated, carries
transaction result tesSUCCESS, has non-empty hash, account and destination,
and its amount is the decimal rendering of a drops value of at least
minPaymentDrops. -/
theorem parseTransaction_emitted_invariants
    (minPaymentDrops maxGeoCandidates now : Int) (msg : JObj) (tx : Transaction)
    (h : parseTransaction minPaymentDrops maxGeoCandidates now msg = .ok (some tx)) :
    tx.Validated = true ∧ tx.TransactionResult = "tesSUCCESS" ∧
      tx.Hash ≠ "" ∧ tx.Account ≠ "" ∧ tx.Destination ≠ "" ∧
      ∃ amountDrops : Int, tx.Amount = toString amountDrops ∧ minPaymentDrops ≤ amountDrops := by
  simp only [parseTransaction] at h
  repeat' split at h
  all_goals (try simp_all)
  all_goals (subst h; refine ⟨?_, ?_, ?_, ?_, ?_, ⟨_, rfl, by assumption⟩⟩ <;> simp_all)

/-- Witness for C3: the invariants hold on a concrete emitted frame. -/
theorem parseTransaction_emitted_invariants_witness :
    parseTransaction 10000000000 6 0 c3Msg = .ok (some c3Tx) ∧
      (c3Tx.Validated = true ∧ c3Tx.TransactionResult = "tesSUCCESS" ∧
        c3Tx.Hash ≠ "" ∧ c3Tx.Account ≠ "" ∧ c3Tx.Destination ≠ "" ∧
        ∃ amountDrops : Int, c3Tx.Amount = toString amountDrops ∧ 10000000000 ≤ amountDrops) := by
  have h : parseTransaction 10000000000 6 0 c3Msg = .ok (some c3Tx) := by rfl
  exact ⟨h, parseTransaction_emitted_invariants 10000000000 6 0 c3Msg c3Tx h⟩

/-- C1 counterexample: a frame whose metadata reports the delivered amount
as unavailable but whose partial-payment flag is clear is not dropped — the
listener emits it with the top-level Amount. -/
theorem parsePaymentUnavailable_counterexample :
    jLookup c1Meta "delivered_amount" = some (.jstr "unavailable") ∧
      jLookupV c1Msg "meta" = .jobj c1Meta ∧
      isPartialPayment c1Txn = false ∧
      parseTransaction 10000000000 6 0 c1Msg = .ok (some c1Tx) ∧
      c1Tx.Amount = "15000000000" :=
  ⟨rfl, rfl, rfl, by rfl, rfl⟩

/-- C1 amended: a numeric delivered amount is used as is; a delivered
amount equal to unavailable merely disables the delivered amount (it does
not drop the transaction by itself); with no usable delivered amount a
partial payment is dropped and any other payment falls back to the
top-level Amount. -/
theorem parsePaymentAmountDrops_amended (msg txnRaw meta : JObj)
    (hmeta : jLookupV msg "meta" = .jobj meta) :
    (∀ d : Int, parseDeliveredDrops meta = some d → parsePaymentAmountDrops msg txnRaw = some d) ∧
      (parseDeliveredDrops meta = none → isPartialPayment txnRaw = true →
        parsePaymentAmountDrops msg txnRaw = none) ∧
      (parseDeliveredDrops meta = none → isPartialPayment txnRaw = false →
        parsePaymentAmountDrops msg txnRaw = parseDrops (jLookupV txnRaw "Amount")) ∧
      (jLookup meta "delivered_amount" = some (.jstr "unavailable") →
        parseDeliveredDrops meta = none) := by
  refine ⟨?_, ?_, ?_, ?_⟩
  · intro d hd
    simp [parsePaymentAmountDrops, hmeta, hd]
  · intro hd hp
    simp [parsePaymentAmountDrops, hmeta, hd, hp]
  · intro hd hp
    simp [parsePaymentAmountDrops, hmeta, hd, hp]
  · intro hun
    simp [parseDeliveredDrops, deliveredLoop, hun, goEqualFold]

/-- Witness for the amended C1: at the concrete unavailable frame, the
partial branch drops and the non-partial branch uses Amount. -/
theorem parsePaymentAmountDrops_amended_witness :
    jLookupV c1Msg "meta" = .jobj c1Meta ∧
      (parseDeliveredDrops c1Meta = none → isPartialPayment c1Txn = false →
        parsePaymentAmountDrops c1Msg c1Txn = parseDrops (jLookupV c1Txn "Amount")) ∧
      parseDeliveredDrops c1Meta = none ∧ isPartialPayment c1Txn = false ∧
      parsePaymentAmountDrops c1Msg c1Txn = some 15000000000 :=
  ⟨rfl, (parsePaymentAmountDrops_amended c1Msg c1Txn c1Meta rfl).2.2.1, by rfl, rfl, by rfl⟩

/-- Trivial extension step: an unchanged accumulator extends itself. -/
theorem accExtendsRefl (acc : List String) :
    ∃ t, acc = acc ++ t ∧
      ((∀ x ∈ acc, isLikelyXRPLAccount x = true) → acc.Nodup →
        (∀ x ∈ acc ++ t, isLikelyXRPLAccount x = true) ∧ (acc ++ t).Nodup) :=
  ⟨[], by simp, fun a b => by simpa using ⟨a, b⟩⟩

/-- The candidate accumulator only ever appends, and it preserves the
well-shaped, duplicate-free invariant. -/
theorem addCandidate_extends (acc : List String) (c : String) :
    ∃ t, addCandidate acc c = acc ++ t ∧
      ((∀ x ∈ acc, isLikelyXRPLAccount x = true) → acc.Nodup →
        (∀ x ∈ acc ++ t, isLikelyXRPLAccount x = true) ∧ (acc ++ t).Nodup) := by
  unfold addCandidate
  dsimp only
  split
  · exact accExtendsRefl acc
  · split
    · exact accExtendsRefl acc
    · rename_i hlikely hmem
      refine ⟨[goTrimSpace c], rfl, fun hall hnd => ⟨?_, ?_⟩⟩
      · intro x hx
        rcases List.mem_append.mp hx with hx | hx
        · exact hall x hx
        · have hxc : x = goTrimSpace c := by simpa using hx
          subst hxc
          simpa using eq_true_of_ne_false hlikely
      · have hni : goTrimSpace c ∉ acc := by simpa using hmem
        simp [List.nodup_append, hni, hnd]

mutual

/-- The candidate walk only appends and preserves the invariant (tree
case). -/
theorem collectCandidateAccounts_extends (v : JValue) (acc : List String) :
    ∃ t, collectCandidateAccounts v acc = acc ++ t ∧
      ((∀ x ∈ acc, isLikelyXRPLAccount x = true) → acc.Nodup →
        (∀ x ∈ acc ++ t, isLikelyXRPLAccount x = true) ∧ (acc ++ t).Nodup) := by
  cases v with
  | jobj fields => simpa [collectCandidateAccounts] using collectFields_extends fields acc
  | jarr items => simpa [collectCandidateAccounts] using collectItems_extends items acc
  | jnull => simpa [collectCandidateAccounts] using accExtendsRefl acc
  | jbool b => simpa [collectCandidateAccounts] using accExtendsRefl acc
  | jnum n => simpa [collectCandidateAccounts] using accExtendsRefl acc
  | jstr s => simpa [collectCandidateAccounts] using accExtendsRefl acc

/-- The candidate walk only appends and preserves the invariant (object
case). -/
theorem collectFields_extends (fields : List (String × JValue)) (acc : List String) :
    ∃ t, collectFields fields acc = acc ++ t ∧
      ((∀ x ∈ acc, isLikelyXRPLAccount x = true) → acc.Nodup →
        (∀ x ∈ acc ++ t, isLikelyXRPLAccount x = true) ∧ (acc ++ t).Nodup) := by
  match fields with
  | [] => simpa [collectFields] using accExtendsRefl acc
  | (key, val) :: rest =>
    have h1 : ∃ t, (if shouldParseAsAccount (goToLower (goTrimSpace key)) then
          (match val with
            | .jstr s => addCandidate acc s
            | _ => acc)
        else acc) = acc ++ t ∧
        ((∀ x ∈ acc, isLikelyXRPLAccount x = true) → acc.Nodup →
          (∀ x ∈ acc ++ t, isLikelyXRPLAccount x = true) ∧ (acc ++ t).Nodup) := by
      split
      · match val with
        | .jstr s => exact addCandidate_extends acc s
        | .jnull => exact accExtendsRefl acc
        | .jbool b => exact accExtendsRefl acc
        | .jnum n => exact accExtendsRefl acc
        | .jarr items => exact accExtendsRefl acc
        | .jobj fs => exact accExtendsRefl acc
      · exact accExtendsRefl acc
    obtain ⟨t1, he1, hp1⟩ := h1
    obtain ⟨t2, he2, hp2⟩ := collectCandidateAccounts_extends val (acc ++ t1)
    obtain ⟨t3, he3, hp3⟩ := collectFields_extends rest (acc ++ t1 ++ t2)
    refine ⟨t1 ++ t2 ++ t3, ?_, ?_⟩
    · simp only [collectFields, he1, he2]
      rw [he3]
      simp [List.append_assoc]
    · intro hall hnd
      have h2 := hp1 hall hnd
      have h3 := hp2 h2.1 h2.2
      have h4 := hp3 h3.1 h3.2
      simpa [List.append_assoc] using h4

/-- The candidate walk only appends and preserves the invariant (array
case). -/
theorem collectItems_extends (items : List JValue) (acc : List String) :
    ∃ t, collectItems items acc = acc ++ t ∧
      ((∀ x ∈ acc, isLikelyXRPLAccount x = true) → acc.Nodup →
        (∀ x ∈ acc ++ t, isLikelyXRPLAccount x = true) ∧ (acc ++ t).Nodup) := by
  match items with
  | [] => simpa [collectItems] using accExtendsRefl acc
  | item :: rest =>
    obtain ⟨t1, he1, hp1⟩ := collectCandidateAccounts_extends item acc
    obtain ⟨t2, he2, hp2⟩ := collectItems_extends rest (acc ++ t1)
    refine ⟨t1 ++ t2, ?_, ?_⟩
    · simp only [collectItems, he1]
      rw [he2]
      simp [List.append_assoc]
    · intro hall hnd
      have h2 := hp1 hall hnd
      have h3 := hp2 h2.1 h2.2
      simpa [List.append_assoc] using h3

end

/-- Feeding an empty accumulator one candidate keeps it empty or yields the
trimmed candidate. -/
theorem addCandidate_nil (c : String) :
    addCandidate [] c =
      if isLikelyXRPLAccount (goTrimSpace c) = true then [goTrimSpace c] else [] := by
  unfold addCandidate
  dsimp only
  by_cases h : isLikelyXRPLAccount (goTrimSpace c) = true
  · simp [h]
  · simp [eq_false_of_ne_true h]

/-- Feeding a distinct well-shaped candidate after a first one appends
it. -/
theorem addCandidate_singleton (a c : String)
    (hgood : isLikelyXRPLAccount (goTrimSpace c) = true) (hne : goTrimSpace c ≠ a) :
    addCandidate [a] c = [a, goTrimSpace c] := by
  unfold addCandidate
  dsimp only
  simp [hgood, hne]

/-- C7: every gathered geo candidate is XRPL-shaped (length 25 to 40,
leading r, base58 alphabet), the list is duplicate-free and truncated to
maxCandidates, its first entry is the trimmed source whenever the source is
well shaped, its second entry is the trimmed destination whenever both are
well shaped and distinct (and the bound allows two entries), and the
concrete source, destination, issuer, owner scenario with bound 3 yields
exactly source, destination, issuer. -/
theorem gatherGeoCandidates_spec (txnRaw : JObj) (meta : JValue)
    (account destination : String) (maxCandidates : Int) :
    (∀ x ∈ gatherGeoCandidates txnRaw meta account destination maxCandidates,
        isLikelyXRPLAccount x = true) ∧
      (gatherGeoCandidates txnRaw meta account destination maxCandidates).Nodup ∧
      (0 < maxCandidates →
        ((gatherGeoCandidates txnRaw meta account destination maxCandidates).length : Int) ≤
          maxCandidates) ∧
      (isLikelyXRPLAccount (goTrimSpace account) = true →
        (gatherGeoCandidates txnRaw meta account destination maxCandidates).head? =
          some (goTrimSpace account)) ∧
      (isLikelyXRPLAccount (goTrimSpace account) = true →
        isLikelyXRPLAccount (goTrimSpace destination) = true →
        goTrimSpace account ≠ goTrimSpace destination →
        2 ≤ maxCandidates ∨ maxCandidates ≤ 0 →
        (gatherGeoCandidates txnRaw meta account destination maxCandidates)[1]? =
          some (goTrimSpace destination)) ∧
      gatherGeoCandidates c7Txn c7MetaVal c7S c7D 3 = [c7S, c7D, c7I] := by
  obtain ⟨t1, he1, hp1⟩ := addCandidate_extends [] account
  obtain ⟨t2, he2, hp2⟩ := addCandidate_extends (addCandidate [] account) destination
  obtain ⟨t3, he3, hp3⟩ := collectCandidateAccounts_extends (JValue.jobj txnRaw)
      (addCandidate (addCandidate [] account) destination)
  obtain ⟨t4, he4, hp4⟩ := collectCandidateAccounts_extends meta
      (collectCandidateAccounts (JValue.jobj txnRaw)
        (addCandidate (addCandidate [] account) destination))
  have i1 := hp1 (by simp) (by simp)
  rw [← he1] at i1
  have i2 := hp2 i1.1 i1.2
  rw [← he2] at i2
  have i3 := hp3 i2.1 i2.2
  rw [← he3] at i3
  have i4 := hp4 i3.1 i3.2
  rw [← he4] at i4
  have hgather : gatherGeoCandidates txnRaw meta account destination maxCandidates =
      (if 0 < maxCandidates ∧ maxCandidates <
          ((collectCandidateAccounts meta (collectCandidateAccounts (JValue.jobj txnRaw)
            (addCandidate (addCandidate [] account) destination))).length : Int) then
        (collectCandidateAccounts meta (collectCandidateAccounts (JValue.jobj txnRaw)
          (addCandidate (addCandidate [] account) destination))).take maxCandidates.toNat
      else
        collectCandidateAccounts meta (collectCandidateAccounts (JValue.jobj txnRaw)
          (addCandidate (addCandidate [] account) destination))) := rfl
  refine ⟨?_, ?_, ?_, ?_, ?_, ?_⟩
  · rw [hgather]
    split
    · exact fun x hx => i4.1 x (List.mem_of_mem_take hx)
    · exact i4.1
  · rw [hgather]
    split
    · exact List.Sublist.nodup (List.take_sublist _ _) i4.2
    · exact i4.2
  · intro hpos
    rw [hgather]
    split
    · rename_i hcond
      have hlen := List.length_take maxCandidates.toNat
        (collectCandidateAccounts meta (collectCandidateAccounts (JValue.jobj txnRaw)
          (addCandidate (addCandidate [] account) destination)))
      rw [hlen]
      omega
    · rename_i hcond
      rw [not_and_or] at hcond
      rcases hcond with hcond | hcond
      · exact absurd hpos hcond
      · omega
  · intro hA
    have hc0 : addCandidate [] account = [goTrimSpace account] := by
      rw [addCandidate_nil, if_pos hA]
    have hc3 : collectCandidateAccounts meta (collectCandidateAccounts (JValue.jobj txnRaw)
        (addCandidate (addCandidate [] account) destination)) =
        goTrimSpace account :: (t2 ++ t3 ++ t4) := by
      rw [he4, he3, he2, hc0]
      simp [List.append_assoc]
    rw [hgather, hc3]
    split
    · rename_i hcond
      obtain ⟨k, hk⟩ : ∃ k, maxCandidates.toNat = k + 1 := ⟨maxCandidates.toNat - 1, by omega⟩
      rw [hk, List.take_succ_cons]
      rfl
    · rfl
  · intro hA hD hne hbound
    have hc0 : addCandidate [] account = [goTrimSpace account] := by
      rw [addCandidate_nil, if_pos hA]
    have hc1 : addCandidate (addCandidate [] account) destination =
        [goTrimSpace account, goTrimSpace destination] := by
      rw [hc0, addCandidate_singleton _ _ hD (Ne.symm hne)]
    have hc3 : collectCandidateAccounts meta (collectCandidateAccounts (JValue.jobj txnRaw)
        (addCandidate (addCandidate [] account) destination)) =
        goTrimSpace account :: goTrimSpace destination :: (t3 ++ t4) := by
      rw [he4, he3, hc1]
      simp [List.append_assoc]
    rw [hgather, hc3]
    split
    · rename_i hcond
      have h2 : 2 ≤ maxCandidates := by
        rcases hbound with h | h
        · exact h
        · omega
      obtain ⟨k, hk⟩ : ∃ k, maxCandidates.toNat = k + 2 := ⟨maxCandidates.toNat - 2, by omega⟩
      rw [hk, show k + 2 = (k + 1) + 1 from rfl, List.take_succ_cons, List.take_succ_cons]
      simp
    · simp
  · decide

/-- List.lookup on a cons cell, phrased with propositional equality. -/
theorem lookup_cons {β : Type} (k k0 : String) (v0 : β) (rest : List (String × β)) :
    List.lookup k ((k0, v0) :: rest) = if k = k0 then some v0 else List.lookup k rest := by
  simp only [List.lookup]
  cases hbe : k == k0
  · rw [if_neg (ne_of_beq_false hbe)]
  · rw [if_pos (eq_of_beq hbe)]

/-- Lookup after a Go map assignment on an association list. -/
theorem alSet_lookup {β : Type} (m : List (String × β)) (key k : String) (v : β) :
    List.lookup k (alSet m key v) = if k = key then some v else List.lookup k m := by
  induction m with
  | nil => simp [alSet, lookup_cons]
  | cons kv rest ih =>
    obtain ⟨k0, v0⟩ := kv
    by_cases hk : k0 = key
    · subst hk
      have halSet : alSet ((k0, v0) :: rest) k0 v = (k0, v) :: rest := by
        simp [alSet]
      rw [halSet, lookup_cons, lookup_cons]
      by_cases hkk : k = k0 <;> simp [hkk]
    · simp only [alSet, if_neg hk, lookup_cons, ih]
      by_cases hkk : k = k0
      · subst hkk
        simp [hk]
      · simp [hkk]

/-- A hit in the committed snapshot map comes from a list element with that
address (or from the fold's initial map). -/
theorem commit_lookup (vs : List Validator) (acc : List (String × Validator)) (a : String)
    (v : Validator)
    (h : List.lookup a (vs.foldl (fun m u => alSet m u.Address u) acc) = some v) :
    (∃ u ∈ vs, u.Address = a ∧ u = v) ∨ List.lookup a acc = some v := by
  induction vs generalizing acc with
  | nil => exact Or.inr h
  | cons w rest ih =>
    simp only [List.foldl_cons] at h
    rcases ih (alSet acc w.Address w) h with hin | hacc
    · obtain ⟨u, hu, hua, huv⟩ := hin
      exact Or.inl ⟨u, List.mem_cons_of_mem _ hu, hua, huv⟩
    · rw [alSet_lookup] at hacc
      split at hacc
      · rename_i haddr
        obtain rfl : w = v := by injection hacc
        exact Or.inl ⟨_, List.mem_cons_self _ _, haddr.symm, rfl⟩
      · exact Or.inr hacc

/-- The coverage-restoring step never changes a validator's address. -/
theorem preserveOne_address (previous : List (String × Validator))
    (metadataCache : List (String × ValidatorMetadataEntry)) (v : Validator) :
    (preserveOne previous metadataCache v).Address = v.Address := by
  unfold preserveOne
  repeat' split
  all_goals rfl

/-- C2 counterexample: with the empty string as address, a previously
mapped snapshot entry is replaced by a zeroed one, because the Go loop
skips validators whose address is empty. -/
theorem coverageLock_counterexample :
    (List.lookup "" c2Prev).map (fun v => (v.Latitude, v.Longitude)) = some ((1 : Rat), (2 : Rat)) ∧
      (List.lookup "" (commitValidators (preserveMappedCoverage c2Prev [] c2New))).map
        (fun v => (v.Latitude, v.Longitude)) = some ((0 : Rat), (0 : Rat)) := by
  exact ⟨rfl, rfl⟩

/-- C2 amended: for every non-empty address held by both the previous and
the freshly committed snapshot, non-zero previous coordinates force
non-zero new coordinates. -/
theorem preserveMappedCoverage_lock (previous : List (String × Validator))
    (metadataCache : List (String × ValidatorMetadataEntry)) (vs : List Validator)
    (a : String) (vPrev vNew : Validator)
    (hne : a ≠ "")
    (hprev : List.lookup a previous = some vPrev)
    (hnz : vPrev.Latitude ≠ 0 ∨ vPrev.Longitude ≠ 0)
    (hnew : List.lookup a
      (commitValidators (preserveMappedCoverage previous metadataCache vs)) = some vNew) :
    vNew.Latitude ≠ 0 ∨ vNew.Longitude ≠ 0 := by
  rcases commit_lookup _ [] a vNew hnew with hin | hacc
  · obtain ⟨u, hu, hua, huv⟩ := hin
    subst huv
    obtain ⟨w, hw, hwp⟩ := List.mem_map.mp hu
    subst hwp
    rw [preserveOne_address] at hua
    unfold preserveOne
    rw [hua, if_neg hne]
    split
    · rename_i hwnz
      exact hwnz
    · simp only [hprev]
      rw [if_pos hnz]
      simpa using hnz
  · simp [List.lookup] at hacc

/-- Witness for the amended C2: a concrete refresh where a mapped validator
reappears unmapped and the lock restores its coordinates. -/
theorem preserveMappedCoverage_lock_witness :
    c2Addr ≠ "" ∧
      List.lookup c2Addr c2PrevW = some c2ValW ∧
      (c2ValW.Latitude ≠ 0 ∨ c2ValW.Longitude ≠ 0) ∧
      List.lookup c2Addr (commitValidators (preserveMappedCoverage c2PrevW [] c2NewW)) =
        some c2ValW ∧
      (c2ValW.Latitude ≠ 0 ∨ c2ValW.Longitude ≠ 0) := by
  refine ⟨by decide, by rfl, by decide, by rfl, ?_⟩
  exact preserveMappedCoverage_lock c2PrevW [] c2NewW c2Addr c2ValW c2ValW (by decide) (by rfl)
    (by decide) (by rfl)

/-- The metadata field update only rewrites coordinates with the incoming
validator's own non-zero pair, so it keeps a non-zero pair non-zero. -/
theorem updateMetadataEntry_keeps_nonzero (now : Int) (entry : ValidatorMetadataEntry)
    (v : Validator) (h : entry.Latitude ≠ 0 ∨ entry.Longitude ≠ 0) :
    (updateMetadataEntry now entry v).Latitude ≠ 0 ∨
      (updateMetadataEntry now entry v).Longitude ≠ 0 := by
  unfold updateMetadataEntry
  dsimp only
  repeat' split
  all_goals simp_all

/-- C10: updating persisted metadata from a refreshed validator list never
zeroes a stored entry's non-zero coordinate pair — the update rewrites
coordinates only from validators that are themselves mapped, so non-zero
coordinates persist across every refresh. -/
theorem updatePersistedMetadata_monotone (now : Int)
    (metadataCache : List (String × ValidatorMetadataEntry)) (validators : List Validator)
    (k : String) (e e' : ValidatorMetadataEntry)
    (he : List.lookup k metadataCache = some e)
    (hnz : e.Latitude ≠ 0 ∨ e.Longitude ≠ 0)
    (he' : List.lookup k (updatePersistedMetadata now metadataCache validators) = some e') :
    e'.Latitude ≠ 0 ∨ e'.Longitude ≠ 0 := by
  unfold updatePersistedMetadata at he'
  induction validators generalizing metadataCache e with
  | nil =>
    simp only [List.foldl_nil] at he'
    rw [he] at he'
    cases he'
    exact hnz
  | cons v rest ih =>
    simp only [List.foldl_cons] at he'
    by_cases haddr : v.Address = ""
    · rw [if_pos haddr] at he'
      exact ih metadataCache e he hnz he'
    · rw [if_neg haddr] at he'
      by_cases hk : v.Address = k
      · subst hk
        simp only [he] at he'
        refine ih _ (updateMetadataEntry now e v) ?_
          (updateMetadataEntry_keeps_nonzero now e v hnz) he'
        rw [alSet_lookup, if_pos rfl]
      · refine ih _ e ?_ hnz he'
        rw [alSet_lookup, if_neg (fun hkk => hk hkk.symm)]
        exact he

/-- Witness for C10: a concrete refresh of an unmapped validator leaves the
stored coordinates untouched. -/
theorem updatePersistedMetadata_monotone_witness :
    List.lookup c2Addr c10Cache = some c10Entry ∧
      (c10Entry.Latitude ≠ 0 ∨ c10Entry.Longitude ≠ 0) ∧
      List.lookup c2Addr (updatePersistedMetadata 99 c10Cache c10New) = some c10EntryW ∧
      (c10EntryW.Latitude ≠ 0 ∨ c10EntryW.Longitude ≠ 0) := by
  refine ⟨by rfl, by decide, by rfl, ?_⟩
  exact updatePersistedMetadata_monotone 99 c10Cache c10New c2Addr c10Entry c10EntryW
    (by rfl) (by decide) (by rfl)

/-- Once an attempt error is on record and every remaining attempt fails,
the endpoint retry loop ends in an error. -/
theorem endpointAttemptLoop_allFail (now : Int) (fetch : Nat → Except String JValue)
    (hfail : ∀ n, ∃ e, attemptOnce now fetch n = .error e) :
    ∀ remaining attempt e0, ∃ e,
      endpointAttemptLoop now fetch attempt remaining (some e0) = .error e := by
  intro remaining
  induction remaining with
  | zero => exact fun attempt e0 => ⟨e0, rfl⟩
  | succ r ih =>
    intro attempt e0
    obtain ⟨e, hee⟩ := hfail attempt
    simpa [endpointAttemptLoop, hee] using ih (attempt + 1) e

/-- With at least one configured retry, an endpoint whose every attempt
fails yields an error from getServerStatusFromEndpoint. -/
theorem getServerStatusFromEndpoint_allFail (now : Int) (retries : Nat)
    (fetch : Nat → Except String JValue) (hr : 1 ≤ retries)
    (hfail : ∀ n, ∃ e, attemptOnce now fetch n = .error e) :
    ∃ e, getServerStatusFromEndpoint now retries fetch = .error e := by
  obtain ⟨r, rfl⟩ : ∃ r, retries = r + 1 := ⟨retries - 1, by omega⟩
  obtain ⟨e, hee⟩ := hfail 1
  unfold getServerStatusFromEndpoint
  simpa [endpointAttemptLoop, hee] using endpointAttemptLoop_allFail now fetch hfail r 2 e

/-- The endpoint loop returns an error whenever every endpoint fails and
either an error is already on record or at least one endpoint remains. -/
theorem serverStatusLoop_allFail (now : Int) (retries : Nat)
    (clientServerInfo : Except String JValue) (hr : 1 ≤ retries) :
    ∀ (endpoints : List (String × (Nat → Except String JValue))) (endpointErrors : List String),
      (∀ ep ∈ endpoints, ∀ n, ∃ e, attemptOnce now ep.2 n = .error e) →
      endpoints ≠ [] ∨ endpointErrors ≠ [] →
      ∃ msg, serverStatusLoop now retries clientServerInfo endpoints endpointErrors = .error msg := by
  intro endpoints
  induction endpoints with
  | nil =>
    intro endpointErrors _ hne
    have herr : endpointErrors ≠ [] := by tauto
    refine ⟨"all network health endpoints failed: " ++ String.intercalate " | " endpointErrors, ?_⟩
    simp [serverStatusLoop, List.isEmpty_iff, herr]
  | cons ep rest ih =>
    intro endpointErrors hfail _
    obtain ⟨e, hee⟩ := getServerStatusFromEndpoint_allFail now retries ep.2 hr
      (hfail ep (List.mem_cons_self _ _))
    have hrec := ih (endpointErrors ++ [ep.1 ++ ": " ++ e])
      (fun q hq n => hfail q (List.mem_cons_of_mem _ hq) n)
      (Or.inr (by simp))
    obtain ⟨msg, hmsg⟩ := hrec
    refine ⟨msg, ?_⟩
    obtain ⟨u, f⟩ := ep
    simpa [serverStatusLoop, hee] using hmsg

/-- C8 amended: when the health endpoint list is non-empty and every
attempt of every endpoint fails, GetServerStatus returns the aggregate
error instead of consulting the general upstream client; the client
fall-through happens exactly when the configured endpoint list is empty. -/
theorem getServerStatus_amended (now : Int) (retries : Nat)
    (endpoints : List (String × (Nat → Except String JValue)))
    (clientServerInfo : Except String JValue)
    (hr : 1 ≤ retries) (hne : endpoints ≠ [])
    (hfail : ∀ ep ∈ endpoints, ∀ n, ∃ e, attemptOnce now ep.2 n = .error e) :
    (∃ msg, getServerStatus now retries endpoints clientServerInfo = .error msg) ∧
      getServerStatus now retries [] clientServerInfo =
        (match clientServerInfo with
         | .error e => .error e
         | .ok result =>
           match parseServerStatusResult now result with
           | .error e => .error e
           | .ok status => .ok (some status)) := by
  constructor
  · exact serverStatusLoop_allFail now retries clientServerInfo hr endpoints []
      hfail (Or.inl hne)
  · rfl

/-- C8 counterexample: with one configured endpoint whose attempts all fail
and an upstream client whose server_info parses successfully, GetServerStatus
returns an error — it does not fall through to the client. -/
theorem getServerStatus_noFallthrough_counterexample :
    getServerStatus 0 2 [c8Endpoint] (.ok c8GoodInfo) =
      .error "all network health endpoints failed: https://xrplcluster.com: connection refused" ∧
      parseServerStatusResult 0 c8GoodInfo =
        .ok { Connected := true, ServerState := "full", LedgerIndex := 90000000, NetworkID := 0,
              PeerCount := 42, CompleteLedgers := "32570-90000000", Uptime := 1000,
              LastSync := 0 } := by
  exact ⟨by rfl, by rfl⟩

/-- Witness for the amended C8 at the concrete failing endpoint. -/
theorem getServerStatus_amended_witness :
    (1 ≤ 2 ∧ [c8Endpoint] ≠ [] ∧
        (∀ ep ∈ [c8Endpoint], ∀ n : Nat, ∃ e, attemptOnce 0 ep.2 n = .error e)) ∧
      (∃ msg, getServerStatus 0 2 [c8Endpoint] (.ok c8GoodInfo) = .error msg) := by
  have hfail : ∀ ep ∈ [c8Endpoint], ∀ n : Nat, ∃ e, attemptOnce 0 ep.2 n = .error e := by
    intro ep hep n
    have : ep = c8Endpoint := by simpa using hep
    subst this
    exact ⟨"connection refused", rfl⟩
  exact ⟨⟨by omega, by simp, hfail⟩,
    (getServerStatus_amended 0 2 [c8Endpoint] (.ok c8GoodInfo) (by omega) (by simp) hfail).1⟩

/-- C9 counterexample: a 500 response whose body decodes into an object
without an error field is returned as success — Command never inspects the
HTTP status code. -/
theorem rippledCommand_ignoresStatus_counterexample :
    rippledCommand (.ok { status := 500, body := some [] }) = .ok (.jobj []) ∧
      ¬(200 ≤ (500 : Int) ∧ (500 : Int) < 300) := by
  exact ⟨rfl, by decide⟩

/-- C9 amended: a Command call succeeds exactly when the transport
succeeded, the body decoded into a map and the map has no error field; the
HTTP status code plays no role at all. -/
theorem rippledCommand_spec :
    (∀ (s1 s2 : Int) (body : Option JObj),
        rippledCommand (.ok { status := s1, body := body }) =
          rippledCommand (.ok { status := s2, body := body })) ∧
      (∀ outcome : HTTPOutcome,
        (∃ v, rippledCommand (.ok outcome) = .ok v) ↔
          (∃ result, outcome.body = some result ∧ jLookup result "error" = none)) := by
  constructor
  · intro s1 s2 body
    rfl
  · intro outcome
    constructor
    · intro ⟨v, hv⟩
      simp only [rippledCommand] at hv
      rcases hb : outcome.body with _ | result
      · simp [hb] at hv
      · rcases herr : jLookup result "error" with _ | errv
        · exact ⟨result, rfl, herr⟩
        · simp [hb, herr] at hv
    · intro ⟨result, hb, herr⟩
      refine ⟨.jobj result, ?_⟩
      simp [rippledCommand, hb, herr]

/-- C4: starting from a state that holds neither a cached geolocation nor a
negative mark for the account, two successive ResolveAccountGeo calls whose
account_info response carries account_data without a Domain issue exactly
one upstream command: the first call marks the account negative and returns
absent, the second is answered by the unexpired negative cache and returns
absent without any command. -/
theorem resolveAccountGeo_negative_cache
    (st : ResolverState) (env : GeoEnv) (now1 now2 ttl : Int) (a : String)
    (respFields resultFields dataFields : JObj)
    (htrim : goTrimSpace a = a) (hane : a ≠ "")
    (hcache : List.lookup ("account:" ++ a) st.cache = none)
    (hmiss : List.lookup a st.missingAccountUntil = none)
    (hresp : env.accountInfo = .ok (.jobj respFields))
    (hres : jLookup respFields "result" = some (.jobj resultFields))
    (hdata : jLookup resultFields "account_data" = some (.jobj dataFields))
    (hdom : jLookup dataFields "Domain" = none)
    (hunexpired : ¬(now2 > now1 + ttl)) :
    (resolveAccountGeo st env now1 ttl a).1 = .ok none ∧
      (resolveAccountGeo st env now1 ttl a).2.2.commands = 1 ∧
      (resolveAccountGeo (resolveAccountGeo st env now1 ttl a).2.1 env now2 ttl a).1 = .ok none ∧
      (resolveAccountGeo (resolveAccountGeo st env now1 ttl a).2.1 env now2 ttl a).2.2.commands
        = 0 := by
  have hdomain : fetchAccountDomain env.accountInfo = .ok "" := by
    rw [hresp]
    simp [fetchAccountDomain, hres, hdata, jLookupV, jStrD, hdom]
  have hcall1 : resolveAccountGeo st env now1 ttl a =
      (.ok none, { st with missingAccountUntil := alSet st.missingAccountUntil a (now1 + ttl) },
        ⟨1, 0, 0⟩) := by
    simp only [resolveAccountGeo, htrim, if_neg hane, getCachedGeo, hcache, hmiss, hdomain]
    rw [if_pos (by decide : goTrimSpace "" = "")]
  have hcall2 : resolveAccountGeo
      { st with missingAccountUntil := alSet st.missingAccountUntil a (now1 + ttl) }
      env now2 ttl a =
      (.ok none, { st with missingAccountUntil := alSet st.missingAccountUntil a (now1 + ttl) },
        ⟨0, 0, 0⟩) := by
    simp only [resolveAccountGeo, htrim, if_neg hane, getCachedGeo]
    simp only [hcache, alSet_lookup, eq_self_iff_true, if_true]
    rw [if_neg hunexpired]
  rw [hcall1]
  rw [hcall2]
  exact ⟨rfl, rfl, rfl, rfl⟩

/-- Witness for C4 on a fresh resolver, a concrete account and times 100
and 200 with a 3600 second TTL. -/
theorem resolveAccountGeo_negative_cache_witness :
    (goTrimSpace c4Account = c4Account ∧ c4Account ≠ "" ∧
        List.lookup ("account:" ++ c4Account) (⟨[], []⟩ : ResolverState).cache = none ∧
        List.lookup c4Account (⟨[], []⟩ : ResolverState).missingAccountUntil = none ∧
        c4Env.accountInfo = .ok (.jobj c4Resp) ∧
        jLookup c4Resp "result" = some (.jobj c4ResultFields) ∧
        jLookup c4ResultFields "account_data" = some (.jobj c4DataFields) ∧
        jLookup c4DataFields "Domain" = none ∧
        ¬((200 : Int) > 100 + 3600)) ∧
      (resolveAccountGeo ⟨[], []⟩ c4Env 100 3600 c4Account).1 = .ok none ∧
      (resolveAccountGeo ⟨[], []⟩ c4Env 100 3600 c4Account).2.2.commands = 1 ∧
      (resolveAccountGeo (resolveAccountGeo ⟨[], []⟩ c4Env 100 3600 c4Account).2.1
          c4Env 200 3600 c4Account).1 = .ok none ∧
      (resolveAccountGeo (resolveAccountGeo ⟨[], []⟩ c4Env 100 3600 c4Account).2.1
          c4Env 200 3600 c4Account).2.2.commands = 0 := by
  refine ⟨⟨by decide, by decide, rfl, rfl, rfl, rfl, rfl, rfl, by decide⟩, ?_⟩
  exact resolveAccountGeo_negative_cache ⟨[], []⟩ c4Env 100 200 3600 c4Account
    c4Resp c4ResultFields c4DataFields (by decide) (by decide) rfl rfl rfl rfl rfl rfl
    (by decide)

/-- Inversion of a geo cache hit. -/
theorem getCachedGeo_some (st : ResolverState) (key : String) (geo : GeoLocation)
    (h : getCachedGeo st key = some geo) :
    ∃ entry, List.lookup key st.cache = some entry ∧
      geo = ⟨entry.latitude, entry.longitude, entry.country_code, entry.city, ""⟩ := by
  unfold getCachedGeo at h
  split at h
  · exact absurd h (by simp)
  · rename_i entry hentry
    exact ⟨entry, hentry, by injection h with h2; exact h2.symm⟩

/-- A successful domain resolution leaves (or finds) a cache entry for the
normalized domain that carries exactly the returned coordinates, country
and city. -/
theorem resolveDomainGeo_ok_cached (st : ResolverState) (env : GeoEnv) (now : Int)
    (d : String) (g : GeoLocation) (st1 : ResolverState) (stats : CallStats)
    (h : resolveDomainGeo st env now d = (.ok g, st1, stats)) :
    normalizeDomain d ≠ "" ∧
      ∃ ts, List.lookup ("domain:" ++ normalizeDomain d) st1.cache =
        some ⟨g.CountryCode, g.City, g.Latitude, g.Longitude, ts⟩ := by
  unfold resolveDomainGeo at h
  by_cases hdne : normalizeDomain d = ""
  · rw [if_pos hdne] at h
    simp [Prod.ext_iff] at h
  · rw [if_neg hdne] at h
    refine ⟨hdne, ?_⟩
    cases hhit : getCachedGeo st ("domain:" ++ normalizeDomain d) with
    | some geo =>
      rw [hhit] at h
      obtain ⟨hge, hst, _⟩ : geo = g ∧ st = st1 ∧ (⟨0, 0, 0⟩ : CallStats) = stats := by
        simpa [Prod.ext_iff] using h
      obtain ⟨entry, hentry, hgeo⟩ := getCachedGeo_some st _ geo hhit
      subst hge hst
      refine ⟨entry.updated_at, ?_⟩
      rw [hentry]
      rw [hgeo]
    | none =>
      simp only [hhit] at h
      cases hdns : env.dns (normalizeDomain d) with
      | error e =>
        simp only [hdns] at h
        simp [Prod.ext_iff] at h
      | ok ips =>
        simp only [hdns] at h
        by_cases hemp : ips.isEmpty
        · rw [if_pos hemp] at h
          simp [Prod.ext_iff] at h
        · rw [if_neg hemp] at h
          cases hip : getCachedGeo st ("ip:" ++ pickIP ips) with
          | some geo =>
            simp only [hip] at h
            obtain ⟨hge, hst, _⟩ : geo = g ∧
                setCachedGeo st ("domain:" ++ normalizeDomain d) geo now = st1 ∧
                (⟨0, 1, 0⟩ : CallStats) = stats := by
              simpa [Prod.ext_iff] using h
            subst hge
            refine ⟨now, ?_⟩
            rw [← hst]
            simp [setCachedGeo, alSet_lookup]
          | none =>
            simp only [hip] at h
            cases hdb : env.geoByIP (pickIP ips) with
            | error e =>
              simp only [hdb] at h
              simp [Prod.ext_iff] at h
            | ok og =>
              simp only [hdb] at h
              cases og with
              | none => simp [Prod.ext_iff] at h
              | some geo =>
                obtain ⟨hge, hst, _⟩ : geo = g ∧
                    setCachedGeo (setCachedGeo st ("ip:" ++ pickIP ips) geo now)
                      ("domain:" ++ normalizeDomain d) geo now = st1 ∧
                    (⟨0, 1, 1⟩ : CallStats) = stats := by
                  simpa [Prod.ext_iff] using h
                subst hge
                refine ⟨now, ?_⟩
                rw [← hst]
                simp [setCachedGeo, alSet_lookup]

/-- C5: after one resolver successfully resolves a domain, a fresh resolver
built from the persisted cache file answers the same domain from the cache
alone — the same geolocation, no DNS query and no city-database lookup. -/
theorem resolveDomainGeo_persist_roundtrip
    (st : ResolverState) (env env2 : GeoEnv) (now now2 : Int) (d : String)
    (g : GeoLocation) (st1 : ResolverState) (stats : CallStats)
    (h : resolveDomainGeo st env now d = (.ok g, st1, stats)) :
    resolveDomainGeo (newResolverState (persistCache st1)) env2 now2 d =
      (.ok { g with ValidatorAddress := "" }, newResolverState (persistCache st1),
        ⟨0, 0, 0⟩) := by
  obtain ⟨hdne, ts, hcached⟩ := resolveDomainGeo_ok_cached st env now d g st1 stats h
  have hstate : newResolverState (persistCache st1) = ⟨st1.cache, []⟩ := rfl
  unfold resolveDomainGeo
  rw [if_neg hdne]
  have hhit : getCachedGeo (newResolverState (persistCache st1))
      ("domain:" ++ normalizeDomain d) =
      some { Latitude := g.Latitude, Longitude := g.Longitude, CountryCode := g.CountryCode,
             City := g.City, ValidatorAddress := "" } := by
    rw [hstate]
    unfold getCachedGeo
    rw [hcached]
  rw [hhit]

/-- Witness for C5: the writer resolves example.org to Paris through DNS
and the database, and a fresh resolver that loaded the persisted file
answers from the cache with DNS and the database disabled. -/
theorem resolveDomainGeo_persist_roundtrip_witness :
    resolveDomainGeo ⟨[], []⟩ c5Env 50 "example.org" = (.ok c5Paris, c5St1, ⟨0, 1, 1⟩) ∧
      resolveDomainGeo (newResolverState (persistCache c5St1)) c5EnvReader 60 "example.org" =
        (.ok { c5Paris with ValidatorAddress := "" }, newResolverState (persistCache c5St1),
          ⟨0, 0, 0⟩) := by
  have h : resolveDomainGeo ⟨[], []⟩ c5Env 50 "example.org" = (.ok c5Paris, c5St1, ⟨0, 1, 1⟩) := by
    rfl
  exact ⟨h, resolveDomainGeo_persist_roundtrip ⟨[], []⟩ c5Env c5EnvReader 50 60 "example.org"
    c5Paris c5St1 ⟨0, 1, 1⟩ h⟩

/-- Converting a valid code point to a character and back is the
identity. -/
theorem toNat_ofNat_valid (n : Nat) (h : n.isValidChar) : (Char.ofNat n).toNat = n := by
  simp [Char.ofNat, h, Char.ofNatAux, Char.toNat, UInt32.toNat, BitVec.toNat_ofNatLt]

/-- Code point of the ASCII lowercase map. -/
theorem goCharToLower_toNat (c : Char) :
    (goCharToLower c).toNat =
      if 65 ≤ c.toNat ∧ c.toNat ≤ 90 then c.toNat + 32 else c.toNat := by
  unfold goCharToLower
  by_cases h : 65 ≤ c.toNat ∧ c.toNat ≤ 90
  · rw [if_pos h, if_pos h]
    exact toNat_ofNat_valid _ (Or.inl (by omega))
  · rw [if_neg h, if_neg h]

/-- Characters outside the uppercase ASCII range are fixed points of the
lowercase map. -/
theorem goCharToLower_fix (c : Char) (h : ¬(65 ≤ c.toNat ∧ c.toNat ≤ 90)) :
    goCharToLower c = c := by
  unfold goCharToLower
  rw [if_neg h]

/-- Per-character idempotence of the lowercase map. -/
theorem goCharToLower_idem (c : Char) :
    goCharToLower (goCharToLower c) = goCharToLower c := by
  by_cases h : 65 ≤ c.toNat ∧ c.toNat ≤ 90
  · apply goCharToLower_fix
    rw [goCharToLower_toNat, if_pos h]
    omega
  · rw [goCharToLower_fix c h]
    exact goCharToLower_fix c h

/-- Membership form of the whitespace test. -/
theorem isGoSpace_iff (c : Char) :
    isGoSpace c = true ↔
      (c.toNat = 32 ∨ c.toNat = 9 ∨ c.toNat = 10 ∨ c.toNat = 11 ∨ c.toNat = 12 ∨
        c.toNat = 13 ∨ c.toNat = 133 ∨ c.toNat = 160) := by
  simp [isGoSpace]
  tauto

/-- Lowercasing preserves the whitespace test. -/
theorem isGoSpace_goCharToLower (c : Char) : isGoSpace (goCharToLower c) = isGoSpace c := by
  by_cases h : 65 ≤ c.toNat ∧ c.toNat ≤ 90
  · have hL : isGoSpace (goCharToLower c) = false := by
      rw [Bool.eq_false_iff]
      intro htrue
      rw [isGoSpace_iff, goCharToLower_toNat, if_pos h] at htrue
      omega
    have hR : isGoSpace c = false := by
      rw [Bool.eq_false_iff]
      intro htrue
      rw [isGoSpace_iff] at htrue
      omega
    rw [hL, hR]
  · rw [goCharToLower_fix c h]

/-- The head of a dropWhile result fails the test. -/
theorem dropWhile_cons_head (p : Char → Bool) :
    ∀ (l : List Char) a t, l.dropWhile p = a :: t → p a = false := by
  intro l
  induction l with
  | nil => intro a t h; simp at h
  | cons b rest ih =>
    intro a t h
    rw [List.dropWhile_cons] at h
    split at h
    · exact ih a t h
    · rename_i hb
      injection h with h1 _
      subst h1
      simpa using hb

/-- dropWhile is the identity when the head fails the test. -/
theorem dropWhile_eq_self_of_head (p : Char → Bool) (l : List Char)
    (h : ∀ a t, l = a :: t → p a = false) : l.dropWhile p = l := by
  cases l with
  | nil => rfl
  | cons a t =>
    rw [List.dropWhile_cons, if_neg]
    simp [h a t rfl]

/-- trimRightWhile yields a prefix of its input. -/
theorem trimRightWhile_pre (p : Char → Bool) :
    ∀ l : List Char, ∃ t, l = trimRightWhile p l ++ t := by
  intro l
  induction l with
  | nil => exact ⟨[], rfl⟩
  | cons c rest ih =>
    obtain ⟨t, ht⟩ := ih
    rw [trimRightWhile]
    cases hr : trimRightWhile p rest with
    | nil =>
      simp only [hr]
      by_cases hc : p c = true
      · rw [if_pos hc]
        exact ⟨c :: rest, by simp⟩
      · rw [if_neg hc]
        exact ⟨rest, by simp⟩
    | cons x xs =>
      simp only [hr]
      rw [hr] at ht
      refine ⟨t, ?_⟩
      rw [ht]
      simp

/-- trimRightWhile is idempotent. -/
theorem trimRightWhile_idem (p : Char → Bool) :
    ∀ l : List Char, trimRightWhile p (trimRightWhile p l) = trimRightWhile p l := by
  intro l
  induction l with
  | nil => rfl
  | cons c rest ih =>
    rw [trimRightWhile]
    cases hr : trimRightWhile p rest with
    | nil =>
      simp only [hr]
      by_cases hc : p c = true
      · rw [if_pos hc]
        rfl
      · rw [if_neg hc]
        rw [trimRightWhile, trimRightWhile]
        simp [hc]
    | cons x xs =>
      simp only [hr]
      rw [hr] at ih
      rw [trimRightWhile]
      simp only [ih]

/-- trimWhile is idempotent. -/
theorem trimWhile_idem (p : Char → Bool) (l : List Char) :
    trimWhile p (trimWhile p l) = trimWhile p l := by
  unfold trimWhile
  have hd : (trimRightWhile p (l.dropWhile p)).dropWhile p =
      trimRightWhile p (l.dropWhile p) := by
    apply dropWhile_eq_self_of_head
    intro a t h
    obtain ⟨t2, ht2⟩ := trimRightWhile_pre p (l.dropWhile p)
    apply dropWhile_cons_head p l a (t ++ t2)
    rw [ht2, h]
    simp
  rw [hd, trimRightWhile_idem]

/-- dropWhile commutes with the lowercase map. -/
theorem dropWhile_map_lower (p : Char → Bool) (hp : ∀ c, p (goCharToLower c) = p c) :
    ∀ l : List Char, (l.map goCharToLower).dropWhile p = (l.dropWhile p).map goCharToLower := by
  intro l
  induction l with
  | nil => rfl
  | cons c rest ih =>
    simp only [List.map_cons, List.dropWhile_cons, hp c]
    split
    · exact ih
    · simp

/-- trimRightWhile commutes with the lowercase map. -/
theorem trimRightWhile_map_lower (p : Char → Bool) (hp : ∀ c, p (goCharToLower c) = p c) :
    ∀ l : List Char,
      trimRightWhile p (l.map goCharToLower) = (trimRightWhile p l).map goCharToLower := by
  intro l
  induction l with
  | nil => rfl
  | cons c rest ih =>
    simp only [List.map_cons]
    rw [trimRightWhile, trimRightWhile]
    simp only [ih]
    cases hr : trimRightWhile p rest with
    | nil =>
      simp only [hr, List.map_nil, hp c]
      split <;> simp
    | cons x xs =>
      simp only [hr]
      simp

/-- trimWhile of whitespace commutes with lowercasing. -/
theorem trimWhile_toLowerL (l : List Char) :
    trimWhile isGoSpace (toLowerL l) = toLowerL (trimWhile isGoSpace l) := by
  unfold trimWhile toLowerL
  rw [dropWhile_map_lower isGoSpace isGoSpace_goCharToLower,
    trimRightWhile_map_lower isGoSpace isGoSpace_goCharToLower]

/-- The lowercase map is idempotent on lists. -/
theorem toLowerL_idem (l : List Char) : toLowerL (toLowerL l) = toLowerL l := by
  unfold toLowerL
  rw [List.map_map]
  apply List.map_congr_left
  intro a _
  simpa using goCharToLower_idem a

/-- The output of normCore carries no outer whitespace. -/
theorem normCore_trimmed (r : List Char) :
    trimWhile isGoSpace (normCore r) = normCore r := by
  simp only [normCore]
  rw [trimWhile_toLowerL, trimWhile_idem]

/-- The output of normCore is already lowercase. -/
theorem normCore_lower (r : List Char) : toLowerL (normCore r) = normCore r := by
  simp only [normCore]
  rw [toLowerL_idem]

/-- Every character of a byte-prefix occurs in the longer list. -/
theorem mem_of_isPrefixOf :
    ∀ (pre l : List Char), pre.isPrefixOf l = true → ∀ c ∈ pre, c ∈ l := by
  intro pre
  induction pre with
  | nil => intro l _ c hc; simp at hc
  | cons a pr ih =>
    intro l hp c hc
    cases l with
    | nil => simp [List.isPrefixOf] at hp
    | cons b bl =>
      have hp2 : (a == b) = true ∧ pr.isPrefixOf bl = true := by
        simpa [List.isPrefixOf, Bool.and_eq_true] using hp
      rcases List.mem_cons.mp hc with hca | hcp
      · subst hca
        rw [eq_of_beq hp2.1]
        exact List.mem_cons_self b bl
      · exact List.mem_cons_of_mem b (ih bl hp2.2 c hcp)

/-- Stripping a prefix that contains a colon from a colon-free list is a
no-op. -/
theorem trimPrefixL_no_colon (pre l : List Char) (hc : ':' ∈ pre) (hl : ':' ∉ l) :
    trimPrefixL pre l = l := by
  unfold trimPrefixL
  rw [if_neg]
  intro hp
  exact hl (mem_of_isPrefixOf pre l hp ':' hc)

/-- A one-character suffix hit pins the last element. -/
theorem getLast?_of_isSuffixOf_singleton (s : Char) (l : List Char)
    (h : List.isSuffixOf [s] l = true) : l.getLast? = some s := by
  rw [List.isSuffixOf] at h
  cases hr : l.reverse with
  | nil =>
    rw [hr] at h
    simp [List.isPrefixOf] at h
  | cons a t =>
    rw [hr] at h
    have hsa : s = a := by
      have : (s == a) = true ∧ List.isPrefixOf ([] : List Char) t = true := by
        simpa [List.isPrefixOf, Bool.and_eq_true] using h
      exact eq_of_beq this.1
    rw [← List.head?_reverse, hr, hsa]
    rfl

/-- Stripping a one-character suffix that does not end the list is a
no-op. -/
theorem trimSuffixL_singleton_no (s : Char) (l : List Char) (h : l.getLast? ≠ some s) :
    trimSuffixL [s] l = l := by
  unfold trimSuffixL
  rw [if_neg]
  intro hs
  exact h (getLast?_of_isSuffixOf_singleton s l hs)

/-- A character absent from the list has no last index. -/
theorem lastIndexOfChar_eq_none (c : Char) :
    ∀ l : List Char, c ∉ l → lastIndexOfChar c l = none := by
  intro l
  induction l with
  | nil => intro _; rfl
  | cons a rest ih =>
    intro h
    rw [lastIndexOfChar, ih (fun hm => h (List.mem_cons_of_mem a hm))]
    have hac : (a == c) = false := by
      rw [beq_eq_false_iff_ne]
      intro hax
      exact h (by rw [← hax]; exact List.mem_cons_self a rest)
    simp [hac]

/-- SplitHostPort fails on a colon-free input. -/
theorem splitHostPortL_none (l : List Char) (h : ':' ∉ l) : splitHostPortL l = none := by
  unfold splitHostPortL
  rw [lastIndexOfChar_eq_none ':' l h]

/-- C6 counterexample: normalization strips only one trailing dot, so a
domain with two trailing dots is not a fixed point of one application. -/
theorem normalizeDomain_not_idem_counterexample :
    normalizeDomain "example.com.." = "example.com." ∧
      normalizeDomain (normalizeDomain "example.com..") = "example.com" ∧
      normalizeDomain (normalizeDomain "example.com..") ≠ normalizeDomain "example.com.." := by
  exact ⟨by decide, by decide, by decide⟩

/-- C6 amended: normalization is idempotent on every input whose normalized
form contains no colon and ends in neither a dot nor a slash; the
particular equalities of the claim hold. -/
theorem normalizeDomain_amended (x : String)
    (hcolon : ':' ∉ (normalizeDomain x).data)
    (hdot : (normalizeDomain x).data.getLast? ≠ some '.')
    (hslash : (normalizeDomain x).data.getLast? ≠ some '/') :
    normalizeDomain (normalizeDomain x) = normalizeDomain x ∧
      normalizeDomain "https://Example.com/" = "example.com" ∧
      normalizeDomain "example.com." = "example.com" := by
  refine ⟨?_, by decide, by decide⟩
  have hLnorm : (normalizeDomain x).data = normCore x.data := rfl
  have e0 : trimWhile isGoSpace (normalizeDomain x).data = (normalizeDomain x).data := by
    rw [hLnorm]
    exact normCore_trimmed x.data
  have e1 : trimPrefixL "http://".data (normalizeDomain x).data = (normalizeDomain x).data :=
    trimPrefixL_no_colon _ _ (by decide) hcolon
  have e2 : trimPrefixL "https://".data (normalizeDomain x).data = (normalizeDomain x).data :=
    trimPrefixL_no_colon _ _ (by decide) hcolon
  have e3 : trimSuffixL "/".data (normalizeDomain x).data = (normalizeDomain x).data :=
    trimSuffixL_singleton_no '/' _ hslash
  have e4 : trimSuffixL ".".data (normalizeDomain x).data = (normalizeDomain x).data :=
    trimSuffixL_singleton_no '.' _ hdot
  have e5 : splitHostPortL (normalizeDomain x).data = none :=
    splitHostPortL_none _ hcolon
  have e6 : toLowerL (normalizeDomain x).data = (normalizeDomain x).data := by
    rw [hLnorm]
    exact normCore_lower x.data
  have hL : normCore (normalizeDomain x).data = (normalizeDomain x).data := by
    simp only [normCore, e0, e1, e2, e3, e4, e5, e6]
  calc normalizeDomain (normalizeDomain x) = ⟨normCore (normalizeDomain x).data⟩ := rfl
    _ = ⟨(normalizeDomain x).data⟩ := by rw [hL]
    _ = normalizeDomain x := rfl

/-- Witness for the amended C6 at a plain domain. -/
theorem normalizeDomain_amended_witness :
    (':' ∉ (normalizeDomain "example.com").data ∧
        (normalizeDomain "example.com").data.getLast? ≠ some '.' ∧
        (normalizeDomain "example.com").data.getLast? ≠ some '/') ∧
      normalizeDomain (normalizeDomain "example.com") = normalizeDomain "example.com" :=
  ⟨⟨by decide, by decide, by decide⟩,
    (normalizeDomain_amended "example.com" (by decide) (by decide) (by decide)).1⟩
